import Mathlib

/-!
# Verification of the dynamic-labyrinth orchestrator core

Shallow embedding of the orchestrator's pool/session engine
(`src/orchestrator/pool_manager.py`, `src/orchestrator/database.py`), the
routing synchronizer (`src/orchestrator/nginx_writer.py`) and the session
cookie generator, together with proofs and refutations of the frozen
specification claims.

The SQLAlchemy session is modelled as a pair of database snapshots
(`persisted`, `current`): ORM attribute mutations and `db.add` act on
`current` (pending, visible to later queries in the same transaction because
of autoflush), and `db.commit()` copies `current` into `persisted`.
Timestamps (`datetime.utcnow()`) are threaded in as explicit `Nat` (for the
pool engine) or `String` (for the cookie generator, which uses
`isoformat()`) parameters.
-/

set_option maxRecDepth 8000
set_option maxHeartbeats 1600000

namespace DynLab

/-- `ContainerModel` of `database.py`: one sandboxed environment.
`state` holds one of the `ContainerState` enum values
(`"idle"`, `"assigned"`, `"unhealthy"`, `"draining"`). -/
structure Container where
  id : String
  level : Nat
  host : String
  port : Nat
  state : String
  assignedSessionId : Option String
  lastHealthCheck : Option Nat
  healthy : Bool
  deriving Repr, DecidableEq

/-- `SessionModel` of `database.py`: one tracked actor's routing identity.
`state` holds one of the `SessionState` enum values
(`"active"`, `"released"`, `"expired"`). -/
structure Session where
  id : String
  currentLevel : Nat
  containerId : Option String
  state : String
  skillScore : Nat
  escalationCount : Nat
  createdAt : Nat
  updatedAt : Nat
  expiresAt : Option Nat
  deriving Repr, DecidableEq

/-- `NginxMapEntryModel` of `database.py`: one routing entry
(cookie → upstream) for the external proxy. -/
structure MapEntry where
  sessionCookie : String
  sessionId : String
  upstream : String
  deriving Repr, DecidableEq

/-- One snapshot of the state store (the three tables the claims touch). -/
structure Db where
  containers : List Container
  sessions : List Session
  entries : List MapEntry
  deriving Repr, DecidableEq

/-- The SQLAlchemy `AsyncSession`: the last committed snapshot plus the
current (pending) one.  Queries inside a transaction see `current`
(autoflush); only `commit` publishes to `persisted`. -/
structure Orm where
  persisted : Db
  current : Db
  deriving Repr, DecidableEq

/-- `db.commit()`. -/
def Orm.commit (o : Orm) : Orm := { o with persisted := o.current }

/-- `get_session_by_id` (`database.py`): `scalar_one_or_none` on a
primary-key filter, i.e. the first row whose id matches. -/
def getSessionById (db : Db) (sid : String) : Option Session :=
  db.sessions.find? (fun s => s.id == sid)

/-- `get_container_by_id` (`database.py`). -/
def getContainerById (db : Db) (cid : String) : Option Container :=
  db.containers.find? (fun c => c.id == cid)

/-- `get_idle_containers_by_level` (`database.py`): containers at the given
level with state `idle` and `healthy` true. -/
def getIdleContainersByLevel (db : Db) (level : Nat) : List Container :=
  db.containers.filter (fun c => c.level == level && c.state == "idle" && c.healthy)

/-- ORM attribute mutation on the container row(s) with the given id. -/
def updateContainer (db : Db) (cid : String) (f : Container → Container) : Db :=
  { db with containers := db.containers.map (fun c => if c.id == cid then f c else c) }

/-- ORM attribute mutation on the session row(s) with the given id. -/
def updateSession (db : Db) (sid : String) (f : Session → Session) : Db :=
  { db with sessions := db.sessions.map (fun s => if s.id == sid then f s else s) }

/-- `db.add(session)`: the new row becomes visible to later queries of the
same transaction. -/
def addSession (db : Db) (s : Session) : Db :=
  { db with sessions := db.sessions ++ [s] }

/-- `PoolManager._find_idle_container`: first idle healthy container at the
level, if any. -/
def findIdleContainer (db : Db) (level : Nat) : Option Container :=
  (getIdleContainersByLevel db level).head?

/-- The ORM mutation of `_release_container`
(`container.state = IDLE; container.assigned_session_id = None`). -/
def idleMark (c : Container) : Container :=
  { c with state := "idle", assignedSessionId := none }

/-- `PoolManager._release_container`: if the container exists, set its state
to idle and clear `assigned_session_id` (no commit of its own). -/
def releaseContainer (db : Db) (cid : String) : Db :=
  match getContainerById db cid with
  | none => db
  | some _ => updateContainer db cid idleMark

/-- The fresh `SessionModel` created by `assign_container` when the session
id is unknown (column defaults of `database.py` fill the other fields). -/
def newSession (sid : String) (now : Nat) : Session :=
  { id := sid, currentLevel := 1, containerId := none, state := "active",
    skillScore := 0, escalationCount := 0, createdAt := now, updatedAt := now,
    expiresAt := none }

/-- The guard of `assign_container`'s early-return branch: the session
exists, already holds a container, its `current_level` is at least the
target, and the held container exists and is healthy. -/
def idemCond (db : Db) (sid : String) (targetLevel : Nat) : Bool :=
  match getSessionById db sid with
  | none => false
  | some s =>
      match s.containerId with
      | none => false
      | some cid =>
          decide (targetLevel ≤ s.currentLevel) &&
            (match getContainerById db cid with
             | none => false
             | some c => c.healthy)

/-- The container search of `assign_container`: the target level first, then
`range(target_level + 1, 4)` in increasing order. -/
def searchContainer (db : Db) (targetLevel : Nat) : Option Container :=
  match findIdleContainer db targetLevel with
  | some c => some c
  | none =>
      (List.range' (targetLevel + 1) (4 - (targetLevel + 1))).findSome?
        (fun l => findIdleContainer db l)

/-- The release of the session's current container performed before an
escalation ("Release current container if session is being escalated"). -/
def heldRelease (db : Db) (sess : Session) : Db :=
  match sess.containerId with
  | some cid => releaseContainer db cid
  | none => db

/-- The ORM mutation assigning a container to a session
(`container.state = ASSIGNED; container.assigned_session_id = session_id`). -/
def assignedMark (sid : String) (x : Container) : Container :=
  { x with state := "assigned", assignedSessionId := some sid }

/-- The ORM mutation of the session record on a successful new allocation
(container id, level, `updated_at`, escalation count, TTL refresh). -/
def sessionMark (cid : String) (level now ttl : Nat) (s : Session) : Session :=
  { s with containerId := some cid, currentLevel := level, updatedAt := now,
           escalationCount := s.escalationCount + 1, expiresAt := some (now + ttl) }

/-- `PoolManager.assign_container`: get or create the session; return the
held container unchanged if it is suitable and healthy; otherwise release
the held container, search the target level then higher levels, and on
success mark the container assigned, update the session (level, counters,
TTL) and commit.  On exhaustion it returns `none` without committing. -/
def assignContainer (o : Orm) (sid : String) (targetLevel : Nat) (now ttl : Nat) :
    Option Container × Orm :=
  let db :=
    match getSessionById o.current sid with
    | some _ => o.current
    | none => addSession o.current (newSession sid now)
  let sess := (getSessionById db sid).getD (newSession sid now)
  if idemCond db sid targetLevel then
    (getContainerById db (sess.containerId.getD ""), { o with current := db })
  else
    let db1 := heldRelease db sess
    match searchContainer db1 targetLevel with
    | none => (none, { o with current := db1 })
    | some c =>
        let db3 := updateSession (updateContainer db1 c.id (assignedMark sid)) sid
          (sessionMark c.id c.level now ttl)
        (some (assignedMark sid c), Orm.commit { o with current := db3 })

/-- The ORM mutation of the session record in `release_session`
(`state = RELEASED; container_id = None; updated_at = now`). -/
def releasedMark (now : Nat) (x : Session) : Session :=
  { x with state := "released", containerId := none, updatedAt := now }

/-- `PoolManager.release_session`: false if the session is unknown;
otherwise release its container (if any), mark the session released, clear
its container id and commit. -/
def releaseSession (o : Orm) (sid : String) (now : Nat) : Bool × Orm :=
  match getSessionById o.current sid with
  | none => (false, o)
  | some s =>
      (true, Orm.commit
        { o with current := updateSession (heldRelease o.current s) sid (releasedMark now) })

/-- The expiry scan of `cleanup_expired_sessions`: active sessions whose
`expires_at` is strictly before `now` (a NULL `expires_at` never
compares true in SQL). -/
def expiredScan (db : Db) (now : Nat) : List Session :=
  db.sessions.filter
    (fun s => s.state == "active" &&
      (match s.expiresAt with | some e => decide (e < now) | none => false))

/-- `PoolManager.cleanup_expired_sessions`: release every scanned session
(with reason "expired", which only affects the log line) and return how many
were processed. -/
def cleanupExpiredSessions (o : Orm) (now : Nat) : Nat × Orm :=
  let expired := expiredScan o.current now
  (expired.length, expired.foldl (fun acc s => (releaseSession acc s.id now).2) o)

/-- `PoolManager.mark_container_health`: if the container exists, set its
`healthy` flag and `last_health_check` and commit; its `state` column is
never touched. -/
def markContainerHealth (o : Orm) (cid : String) (healthy : Bool) (now : Nat) : Orm :=
  match getContainerById o.current cid with
  | none => o
  | some _ =>
      Orm.commit
        { o with current :=
            (updateContainer o.current cid
              (fun c => { c with healthy := healthy, lastHealthCheck := some now })) }

/-! ## Routing synchronizer (`nginx_writer.py`) -/

/-- The two paths `write_map_file` touches: the installed map file at the
final path and the `.tmp` render target next to it.  `none` means the file
does not exist. -/
structure NginxFs where
  installed : Option String
  temp : Option String
  deriving Repr, DecidableEq

/-- Opening brace character (text, not code). -/
def lbrace : Char := Char.ofNat 123

/-- Closing brace character (text, not code). -/
def rbrace : Char := Char.ofNat 125

/-- The fixed comment banner of `NGINX_MAP_TEMPLATE`: a `#`, a space and 77
equals signs. -/
def bannerLine : String :=
  "# " ++ String.mk (List.replicate 77 (Char.ofNat 61)) ++ "\n"

/-- One rendered `{% for %}` block of `NGINX_MAP_TEMPLATE`: a comment naming
the session and the quoted cookie → upstream row. -/
def renderEntry (e : MapEntry) : String :=
  "    # Session: " ++ e.sessionId ++ "\n    \"" ++ e.sessionCookie ++ "\" \""
    ++ e.upstream ++ "\";\n"

/-- The Jinja render of `NGINX_MAP_TEMPLATE`: banner comments, the
`map $cookie_dlsess $honeytrap_upstream` block with its default row, one
block per entry, and the closing brace. -/
def nginxMapRender (generatedAt defaultUpstream : String) (entries : List MapEntry) : String :=
  bannerLine ++ "# Dynamic Labyrinth - Honeytrap Upstream Map\n" ++ bannerLine ++
  "# Generated automatically by the Orchestrator service.\n" ++
  "# DO NOT EDIT MANUALLY - changes will be overwritten.\n#\n" ++
  "# Generated: " ++ generatedAt ++ "\n" ++
  "# Total entries: " ++ toString entries.length ++ "\n" ++ bannerLine ++ "\n" ++
  "map $cookie_dlsess $honeytrap_upstream " ++ String.singleton lbrace ++ "\n" ++
  "    # Default upstream (level 1 pool)\n" ++
  "    default \"" ++ defaultUpstream ++ "\";\n\n" ++
  String.join (entries.map renderEntry) ++
  String.singleton rbrace ++ "\n"

/-- `NginxWriter._validate_config`: the structural check run on the rendered
temporary file — the map directive must be present and the brace counts must
balance. -/
def validateConfig (content : String) : Bool :=
  decide (List.IsInfix "map $cookie_dlsess".data content.data) &&
    content.data.count lbrace == content.data.count rbrace

/-- `NginxWriter.write_map_file`: read all entries, render, write the
render to the `.tmp` path, structurally validate it; on failure delete the
temporary file (`temp` ends `none`) and report failure with the final path
untouched; on success atomically rename the temporary file over the final
path. -/
def writeMapFile (db : Db) (fs : NginxFs) (generatedAt defaultUpstream : String) :
    Bool × NginxFs :=
  if validateConfig (nginxMapRender generatedAt defaultUpstream db.entries) then
    (true, { installed := some (nginxMapRender generatedAt defaultUpstream db.entries),
             temp := none })
  else
    (false, { installed := fs.installed, temp := none })

/-- The upsert step of `add_session_mapping`: update the entry whose
`session_id` matches (the select expects at most one), else insert a new
row. -/
def upsertEntry (db : Db) (sid cookie addr : String) : Db :=
  match db.entries.find? (fun e => e.sessionId == sid) with
  | some _ =>
      { db with entries := (db.entries.map
          (fun e => if e.sessionId == sid then
              { e with sessionCookie := cookie, upstream := addr } else e)) }
  | none =>
      { db with entries := db.entries ++
          [{ sessionCookie := cookie, sessionId := sid, upstream := addr }] }

/-- `NginxWriter.add_session_mapping`: upsert the routing entry, commit,
then regenerate the map file; the result of the regeneration becomes the
call's result, with no rollback of the already-committed upsert. -/
def addSessionMapping (o : Orm) (fs : NginxFs) (sid cookie addr : String)
    (generatedAt defaultUpstream : String) : Bool × Orm × NginxFs :=
  let o1 := Orm.commit { o with current := upsertEntry o.current sid cookie addr }
  let (ok, fs1) := writeMapFile o1.current fs generatedAt defaultUpstream
  (ok, o1, fs1)

/-- Outcome of the HTTP liveness probe of `_nginx_health_check`: either a
response with a status code, or an exception (timeout, connection error). -/
inductive ProbeResult where
  | ok (status : Nat)
  | exn
  deriving Repr, DecidableEq

/-- The external world `reload_nginx` interacts with: the probe outcome and
the return codes of the config self-test and of the reload command. -/
structure NginxEnv where
  probe : ProbeResult
  configTestRc : Int
  reloadRc : Int
  deriving Repr, DecidableEq

/-- `NginxWriter._nginx_health_check`: 200 means healthy; on an exception
the code logs a warning and **returns True** ("assume nginx is up"). -/
def nginxHealthCheck (p : ProbeResult) : Bool :=
  match p with
  | .ok status => status == 200
  | .exn => true

/-- `NginxWriter.reload_nginx`: health check, then `nginx -t`, then the
reload command.  Returns (result, whether the reload command was issued). -/
def reloadNginx (env : NginxEnv) : Bool × Bool :=
  if !nginxHealthCheck env.probe then (false, false)
  else if env.configTestRc != 0 then (false, false)
  else if env.reloadRc != 0 then (false, true)
  else (true, true)

/-! ## Pool status (`get_pool_status`) -/

/-- `PoolStatus` of `models.py`. -/
structure PoolStatusR where
  level : Nat
  total : Nat
  idle : Nat
  assigned : Nat
  unhealthy : Nat
  deriving Repr, DecidableEq

/-- The per-level aggregation of `get_pool_status`: four SELECT COUNTs.
`unhealthy` counts by the `healthy` flag alone, independent of `state`. -/
def getPoolStatusLevel (db : Db) (level : Nat) : PoolStatusR :=
  { level := level,
    total := (db.containers.filter (fun c => c.level == level)).length,
    idle := (db.containers.filter
      (fun c => c.level == level && c.state == "idle")).length,
    assigned := (db.containers.filter
      (fun c => c.level == level && c.state == "assigned")).length,
    unhealthy := (db.containers.filter
      (fun c => c.level == level && c.healthy == false)).length }

/-- `PoolManager.get_pool_status`: the aggregation for levels 1, 2, 3; it
only issues SELECTs, so it is a pure read of the store. -/
def getPoolStatus (db : Db) : List PoolStatusR :=
  [1, 2, 3].map (getPoolStatusLevel db)

/-- The session with the given id, if present, is in the Released state. -/
def sessionReleasedIn (db : Db) (sid : String) : Prop :=
  ∀ s2, getSessionById db sid = some s2 → s2.state = "released"

/-- The container with the given id, if present, is Idle with no assigned
session. -/
def containerIdleIn (db : Db) (cid : String) : Prop :=
  ∀ c2, getContainerById db cid = some c2 → c2.state = "idle" ∧ c2.assignedSessionId = none

/-! ## Session cookie generation (`generate_session_cookie`)

`hashlib.sha256(...).hexdigest()` is embedded as the SHA-256 algorithm over
byte lists (`Nat`s below 256), with 32-bit words as `Nat`s reduced modulo
`2 ^ 32`. -/

/-- 32-bit modulus. -/
def w32 : Nat := 4294967296

/-- Right rotation of a 32-bit word. -/
def rotr32 (n x : Nat) : Nat := x / 2 ^ n + x % 2 ^ n * 2 ^ (32 - n)

/-- Bitwise complement within 32 bits. -/
def not32 (x : Nat) : Nat := Nat.xor x 4294967295

/-- SHA-256 `Ch`. -/
def shaCh (e f g : Nat) : Nat := Nat.xor (Nat.land e f) (Nat.land (not32 e) g)

/-- SHA-256 `Maj`. -/
def shaMaj (a b c : Nat) : Nat :=
  Nat.xor (Nat.xor (Nat.land a b) (Nat.land a c)) (Nat.land b c)

/-- SHA-256 `Σ0`. -/
def bigSigma0 (x : Nat) : Nat := Nat.xor (Nat.xor (rotr32 2 x) (rotr32 13 x)) (rotr32 22 x)

/-- SHA-256 `Σ1`. -/
def bigSigma1 (x : Nat) : Nat := Nat.xor (Nat.xor (rotr32 6 x) (rotr32 11 x)) (rotr32 25 x)

/-- SHA-256 `σ0`. -/
def smallSigma0 (x : Nat) : Nat :=
  Nat.xor (Nat.xor (rotr32 7 x) (rotr32 18 x)) (x / 8)

/-- SHA-256 `σ1`. -/
def smallSigma1 (x : Nat) : Nat :=
  Nat.xor (Nat.xor (rotr32 17 x) (rotr32 19 x)) (x / 1024)

/-- The SHA-256 round constants (decimal). -/
def K256 : List Nat :=
  [1116352408, 1899447441, 3049323471, 3921009573, 961987163, 1508970993,
   2453635748, 2870763221, 3624381080, 310598401, 607225278, 1426881987,
   1925078388, 2162078206, 2614888103, 3248222580, 3835390401, 4022224774,
   264347078, 604807628, 770255983, 1249150122, 1555081692, 1996064986,
   2554220882, 2821834349, 2952996808, 3210313671, 3336571891, 3584528711,
   113926993, 338241895, 666307205, 773529912, 1294757372, 1396182291,
   1695183700, 1986661051, 2177026350, 2456956037, 2730485921, 2820302411,
   3259730800, 3345764771, 3516065817, 3600352804, 4094571909, 275423344,
   430227734, 506948616, 659060556, 883997877, 958139571, 1322822218,
   1537002063, 1747873779, 1955562222, 2024104815, 2227730452, 2361852424,
   2428436474, 2756734187, 3204031479, 3329325298]

/-- The eight working variables of the SHA-256 compression function. -/
structure Sha256State where
  a : Nat
  b : Nat
  c : Nat
  d : Nat
  e : Nat
  f : Nat
  g : Nat
  h : Nat
  deriving Repr, DecidableEq

/-- The SHA-256 initial hash value (decimal). -/
def initHash : Sha256State :=
  { a := 1779033703, b := 3144134277, c := 1013904242, d := 2773480762,
    e := 1359893119, f := 2600822924, g := 528734635, h := 1541459225 }

/-- One SHA-256 round, fed the pair (round constant, schedule word). -/
def shaRound (s : Sha256State) (kw : Nat × Nat) : Sha256State :=
  let t1 := (s.h + bigSigma1 s.e + shaCh s.e s.f s.g + kw.1 + kw.2) % w32
  let t2 := (bigSigma0 s.a + shaMaj s.a s.b s.c) % w32
  { a := (t1 + t2) % w32, b := s.a, c := s.b, d := s.c,
    e := (s.d + t1) % w32, f := s.e, g := s.f, h := s.g }

/-- Big-endian word assembly of the 16 chunk words. -/
def wordsOfBytes : List Nat → List Nat
  | b0 :: b1 :: b2 :: b3 :: rest =>
      (b0 * 16777216 + b1 * 65536 + b2 * 256 + b3) :: wordsOfBytes rest
  | _ => []

/-- Extend the message schedule by `n` further words. -/
def extendSchedule (ws : List Nat) : Nat → List Nat
  | 0 => ws
  | n + 1 =>
      let i := ws.length
      extendSchedule
        (ws ++ [(ws.getD (i - 16) 0 + smallSigma0 (ws.getD (i - 15) 0) +
                 ws.getD (i - 7) 0 + smallSigma1 (ws.getD (i - 2) 0)) % w32]) n

/-- Process one 64-byte chunk: 64 rounds, then add into the hash value. -/
def processChunk (hs : Sha256State) (chunk : List Nat) : Sha256State :=
  let ws := extendSchedule (wordsOfBytes chunk) 48
  let t := (K256.zip ws).foldl shaRound hs
  { a := (hs.a + t.a) % w32, b := (hs.b + t.b) % w32, c := (hs.c + t.c) % w32,
    d := (hs.d + t.d) % w32, e := (hs.e + t.e) % w32, f := (hs.f + t.f) % w32,
    g := (hs.g + t.g) % w32, h := (hs.h + t.h) % w32 }

/-- Big-endian 8-byte encoding of the bit length. -/
def bytesBE8 (n : Nat) : List Nat :=
  [n / 2 ^ 56 % 256, n / 2 ^ 48 % 256, n / 2 ^ 40 % 256, n / 2 ^ 32 % 256,
   n / 2 ^ 24 % 256, n / 2 ^ 16 % 256, n / 2 ^ 8 % 256, n % 256]

/-- SHA-256 padding: `0x80`, zeros to 56 mod 64, then the bit length. -/
def padMessage (msg : List Nat) : List Nat :=
  msg ++ 128 :: (List.replicate ((119 - msg.length % 64) % 64) 0 ++ bytesBE8 (8 * msg.length))

/-- Split into 64-byte chunks (fuelled so that it reduces by computation;
the fuel `l.length` always suffices since every step consumes 64 bytes). -/
def chunks64Aux : Nat → List Nat → List (List Nat)
  | _, [] => []
  | 0, _ => []
  | fuel + 1, l => l.take 64 :: chunks64Aux fuel (l.drop 64)

/-- Split into 64-byte chunks. -/
def chunks64 (l : List Nat) : List (List Nat) :=
  chunks64Aux l.length l

/-- SHA-256 of a byte list, as the final eight hash words. -/
def sha256Words (msg : List Nat) : Sha256State :=
  (chunks64 (padMessage msg)).foldl processChunk initHash

/-- Big-endian bytes of one hash word. -/
def wordBytes (w : Nat) : List Nat :=
  [w / 16777216 % 256, w / 65536 % 256, w / 256 % 256, w % 256]

/-- The 32-byte SHA-256 digest: the eight hash words, big-endian. -/
def sha256Bytes (msg : List Nat) : List Nat :=
  let s := sha256Words msg
  [s.a, s.b, s.c, s.d, s.e, s.f, s.g, s.h].flatMap wordBytes

/-- Lowercase hexadecimal digit. -/
def hexChar (n : Nat) : Char :=
  if n < 10 then Char.ofNat (48 + n) else Char.ofNat (87 + n)

/-- `hexdigest()`: two lowercase hex digits per byte. -/
def hexOfBytes (bs : List Nat) : List Char :=
  bs.flatMap (fun b => [hexChar (b / 16), hexChar (b % 16)])

/-- UTF-8 encoding of one character (`str.encode()`). -/
def utf8Bytes (c : Char) : List Nat :=
  let n := c.toNat
  if n < 128 then [n]
  else if n < 2048 then [192 + n / 64, 128 + n % 64]
  else if n < 65536 then [224 + n / 4096, 128 + n / 64 % 64, 128 + n % 64]
  else [240 + n / 262144, 128 + n / 4096 % 64, 128 + n / 64 % 64, 128 + n % 64]

/-- `str.encode()` over the whole string. -/
def strBytes (s : String) : List Nat := s.data.flatMap utf8Bytes

/-- `hashlib.sha256(hash_input.encode()).hexdigest()[:16]`. -/
def hashValue16 (s : String) : List Char := (hexOfBytes (sha256Bytes (strBytes s))).take 16

/-- `PoolManager.generate_session_cookie`: the current time (as its
`isoformat()` string) is an input of the hash, so it is threaded in as a
parameter. -/
def generateSessionCookie (sessionId timeIso : String) : String :=
  "dlsess_" ++ String.mk (hashValue16 (sessionId ++ ":" ++ timeIso))

end DynLab

namespace DynLab

/-- An idle healthy container for concrete test states. -/
def mkIdle (cid : String) (level : Nat) : Container :=
  { id := cid, level := level, host := "10.0.2.1", port := 8080, state := "idle",
    assignedSessionId := none, lastHealthCheck := none, healthy := true }

/-- The empty store. -/
def emptyDb : Db := { containers := [], sessions := [], entries := [] }

/-- An ORM session whose committed and pending snapshots agree. -/
def ormOf (db : Db) : Orm := { persisted := db, current := db }

/-- A container currently assigned to a session. -/
def mkAssigned (cid : String) (level : Nat) (sid : String) : Container :=
  { id := cid, level := level, host := "10.0.2.1", port := 8080, state := "assigned",
    assignedSessionId := some sid, lastHealthCheck := none, healthy := true }

/-- An active session holding a container. -/
def mkHolding (sid : String) (level : Nat) (cid : String) (esc : Nat) (exp : Nat) : Session :=
  { id := sid, currentLevel := level, containerId := some cid, state := "active",
    skillScore := 0, escalationCount := esc, createdAt := 0, updatedAt := 0,
    expiresAt := some exp }

/-- Store for the C1 counterexample: the session already holds a healthy
assigned container and no Idle container exists anywhere. -/
def cx1Db : Db :=
  { containers := [mkAssigned "c2" 2 "s"], sessions := [mkHolding "s" 2 "c2" 1 1000],
    entries := [] }

/-- Store for the C3 counterexample and witness: one expired active session
holding a container, one live active session. -/
def cx3Db : Db :=
  { containers := [mkAssigned "c1" 1 "s1", mkAssigned "c9" 1 "s2"],
    sessions := [mkHolding "s1" 1 "c1" 1 40, mkHolding "s2" 1 "c9" 1 5000],
    entries := [] }

/-- Store for the C4 counterexample: the session already holds a suitable
healthy container, so both calls of the pair are no-ops. -/
def cx4Db : Db :=
  { containers := [mkAssigned "c2" 2 "s"], sessions := [mkHolding "s" 2 "c2" 5 500],
    entries := [] }

/-- Store for the C2 witness: the fallback scenario — zero Idle containers
at tier 1, one Idle container at tier 2. -/
def w2Db : Db :=
  { containers := [mkIdle "c2" 2], sessions := [], entries := [] }

/-- The container returned in the C2 witness scenario. -/
def w2Res : Container :=
  { mkIdle "c2" 2 with state := "assigned", assignedSessionId := some "s" }

/-- Store for the C9 witness: the session holds a healthy tier-1 container
and a tier-2 Idle container is available for escalation. -/
def w9Db : Db :=
  { containers := [mkAssigned "c1" 1 "s", mkIdle "c2" 2],
    sessions := [mkHolding "s" 1 "c1" 1 500], entries := [] }

/-- Store for the C9 counterexample trace: a tier-3 and a tier-1 Idle
container. -/
def cx9Db : Db :=
  { containers := [mkIdle "c3" 3, mkIdle "c1" 1], sessions := [], entries := [] }

/-- The C9 counterexample trace: assign at tier 3, mark the held container
unhealthy, assign again at tier 1. -/
def cx9Final : Orm :=
  (assignContainer
    (markContainerHealth (assignContainer (ormOf cx9Db) "s" 3 0 100).2 "c3" false 5)
    "s" 1 10 100).2

/-- The C8 counterexample trace: assign the only container, then mark it
unhealthy while it stays assigned. -/
def cx8Final : Orm :=
  markContainerHealth (assignContainer (ormOf { emptyDb with containers := [mkIdle "c1" 1] })
    "s" 1 0 100).2 "c1" false 5

/-- Previously installed configuration content for the install-safety
scenarios. -/
def prevContent : String := "previously installed configuration"

/-- Filesystem with an installed map file and no leftover temp file. -/
def fs0 : NginxFs := { installed := some prevContent, temp := none }

/-- An upstream address containing an opening brace: rendering it produces
unbalanced braces, so structural validation of the render fails. -/
def badAddr : String := "10.0.2.11:8080\x7b"

/-- Store with a single routing entry whose upstream makes the render fail
validation (used for the C7 witness). -/
def w7Db : Db :=
  { containers := [], sessions := [],
    entries := [{ sessionCookie := "dlsess_aaaabbbbccccdddd", sessionId := "s",
                  upstream := badAddr }] }

example :
    (assignContainer (ormOf { emptyDb with containers := [mkIdle "c2" 2] })
      "s" 1 10 100).1 =
      some { mkIdle "c2" 2 with state := "assigned", assignedSessionId := some "s" } := by
  decide

example :
    ((assignContainer (ormOf { emptyDb with containers := [mkIdle "c2" 2] })
      "s" 1 10 100).2.persisted.sessions.map
        (fun s => (s.currentLevel, s.escalationCount, s.expiresAt))) =
      [(2, 1, some 110)] := by
  decide

example :
    String.mk (hexOfBytes (sha256Bytes (strBytes "abc"))) =
      "ba7816bf8f01cfea414140de5dae2223b00361a396177a9cb410ff61f20015ad" := by
  decide

example :
    String.mk (hexOfBytes (sha256Bytes (strBytes ""))) =
      "e3b0c44298fc1c149afbf4c8996fb92427ae41e4649b934ca495991b7852b855" := by
  decide

example :
    generateSessionCookie "a" "2026-01-01T00:00:00" = "dlsess_2c14679269dba8aa" := by
  decide

example :
    generateSessionCookie "a" "2026-01-01T00:00:01" = "dlsess_edda388d6d1c7076" := by
  decide

/-! ## Generic lookup/update lemmas -/

/-- A `find?` by key commutes with a keyed in-place update, provided the
update preserves the key. -/
theorem find?_map_update {α : Type} (key : α → String) (a b : String) (f : α → α)
    (hf : ∀ x, key (f x) = key x) :
    ∀ l : List α,
      (l.map (fun x => if key x == b then f x else x)).find? (fun x => key x == a) =
        (l.find? (fun x => key x == a)).map (fun x => if key x == b then f x else x)
  | [] => rfl
  | x :: xs => by
      have hk : key (if key x == b then f x else x) = key x := by
        by_cases h : (key x == b) = true <;> simp [h, hf]
      simp only [List.map_cons, List.find?_cons, hk]
      cases hab : (key x == a) with
      | true => rfl
      | false => exact find?_map_update key a b f hf xs

/-- With pairwise-distinct keys, `find?` by an element's key returns that
element. -/
theorem find?_key_of_nodup {α : Type} (key : α → String) :
    ∀ l : List α, (l.map key).Nodup → ∀ x ∈ l,
      l.find? (fun y => key y == key x) = some x
  | [], _, x, hx => absurd hx (List.not_mem_nil x)
  | y :: ys, hnd, x, hx => by
      have hnd' : key y ∉ ys.map key ∧ (ys.map key).Nodup := by
        rw [List.map_cons] at hnd; exact List.nodup_cons.mp hnd
      rcases List.mem_cons.mp hx with h | h
      · subst h
        exact List.find?_cons_of_pos _ (by simp)
      · have hne : key y ≠ key x := by
          intro he
          exact hnd'.1 (he ▸ List.mem_map_of_mem key h)
        rw [List.find?_cons_of_neg _ (by simpa using hne)]
        exact find?_key_of_nodup key ys hnd'.2 x h

/-- Distinct keys make elements with equal keys equal. -/
theorem eq_of_key_of_nodup {α : Type} (key : α → String) :
    ∀ l : List α, (l.map key).Nodup → ∀ x ∈ l, ∀ y ∈ l, key x = key y → x = y
  | [], _, x, hx, _, _, _ => absurd hx (List.not_mem_nil x)
  | z :: zs, hnd, x, hx, y, hy, hk => by
      have hnd' : key z ∉ zs.map key ∧ (zs.map key).Nodup := by
        rw [List.map_cons] at hnd; exact List.nodup_cons.mp hnd
      rcases List.mem_cons.mp hx with h1 | h1 <;> rcases List.mem_cons.mp hy with h2 | h2
      · rw [h1, h2]
      · exact absurd (hk ▸ List.mem_map_of_mem key h2) (h1 ▸ hnd'.1)
      · exact absurd (hk ▸ List.mem_map_of_mem key h1) (by rw [h2]; exact hnd'.1)
      · exact eq_of_key_of_nodup key zs hnd'.2 x h1 y h2 hk

/-- A filter is unchanged by a map that only rewrites elements the filter
rejects (before and after). -/
theorem filter_map_pointwise {α : Type} (p : α → Bool) (g : α → α) :
    ∀ l : List α, (∀ x ∈ l, (p (g x) = false ∧ p x = false) ∨ g x = x) →
      (l.map g).filter p = l.filter p
  | [], _ => rfl
  | x :: xs, h => by
      have ih := filter_map_pointwise p g xs (fun y hy => h y (List.mem_cons_of_mem x hy))
      rcases h x (List.mem_cons_self x xs) with ⟨h1, h2⟩ | h1
      · simp [List.filter_cons, h1, h2, ih]
      · by_cases hp : p x = true <;> simp [List.filter_cons, h1, hp, ih]

/-- `findSome?` only depends on the function's values on the list. -/
theorem findSome?_congr {α β : Type} (f g : α → Option β) :
    ∀ l : List α, (∀ x ∈ l, f x = g x) → l.findSome? f = l.findSome? g
  | [], _ => rfl
  | x :: xs, h => by
      rw [List.findSome?_cons, List.findSome?_cons, h x (List.mem_cons_self x xs)]
      cases g x with
      | none => exact findSome?_congr f g xs (fun y hy => h y (List.mem_cons_of_mem x hy))
      | some b => rfl

/-- A hit of `findSome?` on a run of consecutive integers is the first hit:
everything in the range below the hit misses. -/
theorem findSome?_range'_first {β : Type} (f : Nat → Option β) (c : β) :
    ∀ (n s : Nat), (List.range' s n).findSome? f = some c →
      ∃ l0, s ≤ l0 ∧ f l0 = some c ∧ ∀ m, s ≤ m → m < l0 → f m = none
  | 0, s, h => by simp at h
  | n + 1, s, h => by
      rw [List.range'_succ, List.findSome?_cons] at h
      cases hfs : f s with
      | some b =>
          simp only [hfs] at h
          exact ⟨s, Nat.le_refl s, by rw [hfs]; exact h,
            fun m hm1 hm2 => absurd hm1 (by omega)⟩
      | none =>
          simp only [hfs] at h
          obtain ⟨l0, h1, h2, h3⟩ := findSome?_range'_first f c n (s + 1) h
          refine ⟨l0, by omega, h2, fun m hm1 hm2 => ?_⟩
          rcases Nat.eq_or_lt_of_le hm1 with he | hlt
          · rw [← he]; exact hfs
          · exact h3 m hlt hm2

/-! ## Projection and lookup lemmas for the store operations -/

theorem sessions_updateContainer (db : Db) (cid : String) (f : Container → Container) :
    (updateContainer db cid f).sessions = db.sessions := rfl

theorem containers_updateSession (db : Db) (sid : String) (f : Session → Session) :
    (updateSession db sid f).containers = db.containers := rfl

theorem containers_addSession (db : Db) (s : Session) :
    (addSession db s).containers = db.containers := rfl

theorem sessions_releaseContainer (db : Db) (cid : String) :
    (releaseContainer db cid).sessions = db.sessions := by
  unfold releaseContainer
  cases getContainerById db cid <;> rfl

theorem getSessionById_congr {db1 db2 : Db} (sid : String)
    (h : db1.sessions = db2.sessions) : getSessionById db1 sid = getSessionById db2 sid := by
  unfold getSessionById; rw [h]

theorem getContainerById_congr {db1 db2 : Db} (cid : String)
    (h : db1.containers = db2.containers) :
    getContainerById db1 cid = getContainerById db2 cid := by
  unfold getContainerById; rw [h]

theorem getIdle_congr {db1 db2 : Db} (h : db1.containers = db2.containers) (l : Nat) :
    getIdleContainersByLevel db1 l = getIdleContainersByLevel db2 l := by
  unfold getIdleContainersByLevel; rw [h]

theorem getSessionById_updateSession (db : Db) (sid2 sid : String) (f : Session → Session)
    (hf : ∀ s, (f s).id = s.id) :
    getSessionById (updateSession db sid2 f) sid =
      (getSessionById db sid).map (fun s => if s.id == sid2 then f s else s) := by
  unfold getSessionById updateSession
  exact find?_map_update (fun s => s.id) sid sid2 f hf db.sessions

theorem getContainerById_updateContainer (db : Db) (cid2 cid : String)
    (f : Container → Container) (hf : ∀ c, (f c).id = c.id) :
    getContainerById (updateContainer db cid2 f) cid =
      (getContainerById db cid).map (fun c => if c.id == cid2 then f c else c) := by
  unfold getContainerById updateContainer
  exact find?_map_update (fun c => c.id) cid cid2 f hf db.containers

theorem getSessionById_addSession (db : Db) (s : Session) (sid : String) :
    getSessionById (addSession db s) sid =
      (getSessionById db sid).or (if s.id == sid then some s else none) := by
  unfold getSessionById addSession
  rw [List.find?_append]
  congr 1
  cases h : (s.id == sid) <;> simp [List.find?_cons, h]

theorem ids_updateContainer (db : Db) (cid : String) (f : Container → Container)
    (hf : ∀ c, (f c).id = c.id) :
    (updateContainer db cid f).containers.map (fun c => c.id) =
      db.containers.map (fun c => c.id) := by
  unfold updateContainer
  simp only [List.map_map]
  apply List.map_congr_left
  intro x hx
  by_cases h : (x.id == cid) = true <;> simp [Function.comp, h, hf]

theorem ids_releaseContainer (db : Db) (cid : String) :
    (releaseContainer db cid).containers.map (fun c => c.id) =
      db.containers.map (fun c => c.id) := by
  unfold releaseContainer
  cases getContainerById db cid with
  | none => rfl
  | some c => exact ids_updateContainer db cid _ (fun x => rfl)

theorem getSessionById_releaseContainer (db : Db) (cid sid : String) :
    getSessionById (releaseContainer db cid) sid = getSessionById db sid :=
  getSessionById_congr sid (sessions_releaseContainer db cid)

/-! ## Search lemmas -/

theorem getIdle_eq_nil_of_exhausted {db : Db} {t : Nat}
    (hno : ∀ c ∈ db.containers, t ≤ c.level → ¬(c.state = "idle" ∧ c.healthy = true)) :
    ∀ l, t ≤ l → getIdleContainersByLevel db l = [] := by
  intro l hl
  rw [getIdleContainersByLevel, List.filter_eq_nil_iff]
  intro c hc hp
  simp only [Bool.and_eq_true, beq_iff_eq] at hp
  exact hno c hc (by omega) ⟨hp.1.2, hp.2⟩

theorem findIdleContainer_some {db : Db} {l : Nat} {c : Container}
    (h : findIdleContainer db l = some c) :
    c ∈ getIdleContainersByLevel db l ∧ c.level = l ∧ c.state = "idle" ∧ c.healthy = true := by
  unfold findIdleContainer at h
  obtain ⟨ys, hys⟩ := List.head?_eq_some_iff.mp h
  have hmem : c ∈ getIdleContainersByLevel db l := by
    rw [hys]; exact List.mem_cons_self c ys
  have hp := (List.mem_filter.mp hmem).2
  simp only [Bool.and_eq_true, beq_iff_eq] at hp
  exact ⟨hmem, hp.1.1, hp.1.2, hp.2⟩

theorem findIdleContainer_none {db : Db} {l : Nat} (h : findIdleContainer db l = none) :
    getIdleContainersByLevel db l = [] :=
  List.head?_eq_none_iff.mp h

theorem searchContainer_some {db : Db} {t : Nat} {c : Container}
    (h : searchContainer db t = some c) :
    c ∈ getIdleContainersByLevel db c.level ∧ c.state = "idle" ∧ c.healthy = true ∧
      t ≤ c.level ∧
      (getIdleContainersByLevel db t ≠ [] → c.level = t) ∧
      (∀ m, t ≤ m → m < c.level → getIdleContainersByLevel db m = []) := by
  unfold searchContainer at h
  cases hf : findIdleContainer db t with
  | some c0 =>
      simp only [hf] at h
      cases h
      obtain ⟨h1, h2, h3, h4⟩ := findIdleContainer_some hf
      exact ⟨h2 ▸ h1, h3, h4, Nat.le_of_eq h2.symm, fun _ => h2,
        fun m hm1 hm2 => absurd (h2 ▸ hm2) (by omega)⟩
  | none =>
      simp only [hf] at h
      have ht : getIdleContainersByLevel db t = [] := findIdleContainer_none hf
      obtain ⟨l0, h1, h2, h3⟩ := findSome?_range'_first _ c _ _ h
      obtain ⟨m1, m2, m3, m4⟩ := findIdleContainer_some h2
      refine ⟨m2 ▸ m1, m3, m4, by omega, fun hne => absurd ht hne, fun m hm1 hm2 => ?_⟩
      rcases Nat.eq_or_lt_of_le hm1 with he | hlt
      · rw [← he]; exact ht
      · exact findIdleContainer_none (h3 m hlt (by omega))

theorem searchContainer_congr {db1 db2 : Db} (t : Nat)
    (h : ∀ l, t ≤ l → getIdleContainersByLevel db1 l = getIdleContainersByLevel db2 l) :
    searchContainer db1 t = searchContainer db2 t := by
  have h1 : findIdleContainer db1 t = findIdleContainer db2 t := by
    unfold findIdleContainer; rw [h t (Nat.le_refl t)]
  unfold searchContainer
  rw [h1]
  cases findIdleContainer db2 t with
  | some c => rfl
  | none =>
      exact findSome?_congr _ _ _ (fun l hl => by
        unfold findIdleContainer
        rw [h l (by
          have := (List.mem_range'_1).mp hl
          omega)])

/-! ## Branch lemmas for `assignContainer` -/

theorem getSessionById_addSession_new {db : Db} {sid : String} (now : Nat)
    (hs : getSessionById db sid = none) :
    getSessionById (addSession db (newSession sid now)) sid = some (newSession sid now) := by
  rw [getSessionById_addSession, hs]
  simp [newSession]

theorem idemCond_addSession_new {db : Db} {sid : String} (now t : Nat)
    (hs : getSessionById db sid = none) :
    idemCond (addSession db (newSession sid now)) sid t = false := by
  unfold idemCond
  rw [getSessionById_addSession_new now hs]
  rfl

theorem assignContainer_idem {o : Orm} {sid : String} {t : Nat} (now ttl : Nat) {s : Session}
    (hs : getSessionById o.current sid = some s) (hi : idemCond o.current sid t = true) :
    assignContainer o sid t now ttl =
      (getContainerById o.current (s.containerId.getD ""), o) := by
  unfold assignContainer
  rw [hs]
  simp only [hs, hi, Option.getD_some, if_true]

theorem assignContainer_exhausted {o : Orm} {sid : String} {t : Nat} (now ttl : Nat)
    {s : Session} (hs : getSessionById o.current sid = some s)
    (hi : idemCond o.current sid t = false)
    (hsearch : searchContainer (heldRelease o.current s) t = none) :
    assignContainer o sid t now ttl = (none, { o with current := heldRelease o.current s }) := by
  unfold assignContainer
  rw [hs]
  simp only [hs, hi, Option.getD_some, if_false, Bool.false_eq_true, hsearch]

theorem assignContainer_alloc {o : Orm} {sid : String} {t : Nat} (now ttl : Nat)
    {s : Session} (hs : getSessionById o.current sid = some s)
    (hi : idemCond o.current sid t = false) {c : Container}
    (hsearch : searchContainer (heldRelease o.current s) t = some c) :
    assignContainer o sid t now ttl =
      (some (assignedMark sid c),
       Orm.commit { o with current :=
          (updateSession (updateContainer (heldRelease o.current s) c.id (assignedMark sid)) sid
            (sessionMark c.id c.level now ttl)) }) := by
  unfold assignContainer
  rw [hs]
  simp only [hs, hi, Option.getD_some, if_false, Bool.false_eq_true, hsearch]

theorem assignContainer_exhausted_new {o : Orm} {sid : String} {t : Nat} (now ttl : Nat)
    (hs : getSessionById o.current sid = none)
    (hsearch : searchContainer (addSession o.current (newSession sid now)) t = none) :
    assignContainer o sid t now ttl =
      (none, { o with current := addSession o.current (newSession sid now) }) := by
  unfold assignContainer
  rw [hs]
  simp only [getSessionById_addSession_new now hs, idemCond_addSession_new now t hs,
    Option.getD_some, if_false, Bool.false_eq_true]
  have hrel : heldRelease (addSession o.current (newSession sid now)) (newSession sid now) =
      addSession o.current (newSession sid now) := rfl
  rw [hrel, hsearch]

theorem assignContainer_alloc_new {o : Orm} {sid : String} {t : Nat} (now ttl : Nat)
    (hs : getSessionById o.current sid = none) {c : Container}
    (hsearch : searchContainer (addSession o.current (newSession sid now)) t = some c) :
    assignContainer o sid t now ttl =
      (some (assignedMark sid c),
       Orm.commit { o with current :=
          (updateSession
            (updateContainer (addSession o.current (newSession sid now)) c.id (assignedMark sid))
            sid (sessionMark c.id c.level now ttl)) }) := by
  unfold assignContainer
  rw [hs]
  simp only [getSessionById_addSession_new now hs, idemCond_addSession_new now t hs,
    Option.getD_some, if_false, Bool.false_eq_true]
  have hrel : heldRelease (addSession o.current (newSession sid now)) (newSession sid now) =
      addSession o.current (newSession sid now) := rfl
  rw [hrel, hsearch]

/-! ## Claim C6: gated reload -/

/-- C6 counterexample: when the liveness probe fails with an exception
(timeout or connection error), `reload_nginx` does **not** abort — the
health check treats the proxy as up, and with passing self-test and reload
commands the reload is issued and the call reports success. -/
theorem reloadNginx_probe_exception_proceeds :
    reloadNginx { probe := ProbeResult.exn, configTestRc := 0, reloadRc := 0 } = (true, true) := by
  decide

/-- C6 (amended): if the liveness probe returns a response with a non-200
status, `reload_nginx` aborts without issuing the reload command and
reports failure; a probe that fails by exception (timeout, connection
error) is instead treated as the proxy being up. -/
theorem reloadNginx_aborts_on_bad_status (env : NginxEnv) (s : Nat)
    (hp : env.probe = ProbeResult.ok s) (hs : s ≠ 200) :
    reloadNginx env = (false, false) := by
  unfold reloadNginx nginxHealthCheck
  rw [hp]
  simp [hs]

/-- Witness for the amended C6 theorem at a concrete 500 probe response. -/
theorem reloadNginx_aborts_on_bad_status_witness :
    ({ probe := ProbeResult.ok 500, configTestRc := 0, reloadRc := 0 : NginxEnv }.probe =
        ProbeResult.ok 500) ∧ (500 : Nat) ≠ 200 ∧
      reloadNginx { probe := ProbeResult.ok 500, configTestRc := 0, reloadRc := 0 } =
        (false, false) :=
  ⟨rfl, by decide, reloadNginx_aborts_on_bad_status _ 500 rfl (by decide)⟩

/-! ## Claim C7: install safety of `write_map_file` -/

/-- C7: if structural validation of the render fails, `write_map_file`
reports failure, deletes the temporary file, and leaves the installed
configuration byte-identical; and the final path only ever changes to a
render that passed validation (installed by the atomic rename). -/
theorem writeMapFile_install_safety (db : Db) (fs : NginxFs) (gat dflt : String) :
    (validateConfig (nginxMapRender gat dflt db.entries) = false →
      writeMapFile db fs gat dflt = (false, { installed := fs.installed, temp := none })) ∧
    (∀ b fs2, writeMapFile db fs gat dflt = (b, fs2) → fs2.installed ≠ fs.installed →
      b = true ∧ fs2.installed = some (nginxMapRender gat dflt db.entries) ∧
        validateConfig (nginxMapRender gat dflt db.entries) = true) := by
  have hfail : validateConfig (nginxMapRender gat dflt db.entries) = false →
      writeMapFile db fs gat dflt = (false, { installed := fs.installed, temp := none }) := by
    intro hv
    unfold writeMapFile
    rw [if_neg]
    rw [hv]
    exact Bool.false_ne_true
  have hok : validateConfig (nginxMapRender gat dflt db.entries) = true →
      writeMapFile db fs gat dflt =
        (true, { installed := some (nginxMapRender gat dflt db.entries), temp := none }) := by
    intro hv
    unfold writeMapFile
    rw [if_pos hv]
  constructor
  · exact hfail
  · intro b fs2 hw hne
    cases hv : validateConfig (nginxMapRender gat dflt db.entries) with
    | true =>
        rw [hok hv] at hw
        injection hw with h1 h2
        subst h1
        subst h2
        exact ⟨rfl, rfl, rfl⟩
    | false =>
        rw [hfail hv] at hw
        injection hw with h1 h2
        subst h2
        exact absurd rfl hne

/-- Witness for C7 at a concrete store whose render fails validation. -/
theorem writeMapFile_install_safety_witness :
    validateConfig (nginxMapRender "g" "10.0.1.10:8080" w7Db.entries) = false ∧
      writeMapFile w7Db fs0 "g" "10.0.1.10:8080" =
        (false, { installed := some prevContent, temp := none }) :=
  ⟨by decide, (writeMapFile_install_safety w7Db fs0 "g" "10.0.1.10:8080").1 (by decide)⟩

/-! ## Claim C5: publish rollback -/

/-- C5 counterexample: `add_session_mapping` commits the upsert **before**
regenerating the map file, so when the regenerate-and-install step fails
the call returns failure but the entry stays committed while the installed
file is unchanged — the entry table and the installed configuration
diverge, with no rollback. -/
theorem addSessionMapping_diverges :
    (addSessionMapping (ormOf emptyDb) fs0 "s" "dlsess_aaaabbbbccccdddd" badAddr
        "g" "10.0.1.10:8080").1 = false ∧
    ((addSessionMapping (ormOf emptyDb) fs0 "s" "dlsess_aaaabbbbccccdddd" badAddr
        "g" "10.0.1.10:8080").2.1.persisted.entries.map (fun e => e.sessionId)) = ["s"] ∧
    (addSessionMapping (ormOf emptyDb) fs0 "s" "dlsess_aaaabbbbccccdddd" badAddr
        "g" "10.0.1.10:8080").2.2.installed = some prevContent := by
  decide

/-- C5 (amended): if the regenerate-and-install step fails,
`add_session_mapping` returns failure, but the RoutingEntry upsert has
already been committed and is not rolled back (the rollback only covers a
raised exception), so the entry table and the installed file may diverge;
the installed file itself is left unchanged. -/
theorem addSessionMapping_no_rollback (o : Orm) (fs : NginxFs)
    (sid cookie addr gat dflt : String)
    (hv : validateConfig
        (nginxMapRender gat dflt (upsertEntry o.current sid cookie addr).entries) = false) :
    addSessionMapping o fs sid cookie addr gat dflt =
      (false,
       Orm.commit { o with current := upsertEntry o.current sid cookie addr },
       { installed := fs.installed, temp := none }) := by
  unfold addSessionMapping writeMapFile
  simp [hv, Orm.commit]

/-- Witness for the amended C5 theorem at a concrete failing render. -/
theorem addSessionMapping_no_rollback_witness :
    validateConfig (nginxMapRender "g" "10.0.1.10:8080"
        (upsertEntry (ormOf emptyDb).current "s" "dlsess_aaaabbbbccccdddd" badAddr).entries) =
      false ∧
    addSessionMapping (ormOf emptyDb) fs0 "s" "dlsess_aaaabbbbccccdddd" badAddr
        "g" "10.0.1.10:8080" =
      (false,
       Orm.commit { ormOf emptyDb with
         current := upsertEntry (ormOf emptyDb).current "s" "dlsess_aaaabbbbccccdddd" badAddr },
       { installed := some prevContent, temp := none }) :=
  ⟨by decide,
   addSessionMapping_no_rollback (ormOf emptyDb) fs0 "s" "dlsess_aaaabbbbccccdddd" badAddr
     "g" "10.0.1.10:8080" (by decide)⟩

/-! ## Claim C8: pool status counts -/

theorem length_filter_le_filter {α : Type} (p q : α → Bool)
    (himp : ∀ x, p x = true → q x = true) :
    ∀ l : List α, (l.filter p).length ≤ (l.filter q).length
  | [] => Nat.le_refl 0
  | x :: xs => by
      have ih := length_filter_le_filter p q himp xs
      cases hp : p x with
      | true =>
          simp only [List.filter_cons, hp, himp x hp, if_true, List.length_cons]
          exact Nat.succ_le_succ ih
      | false =>
          simp only [List.filter_cons, hp, if_false, Bool.false_eq_true]
          cases hq : q x with
          | true => simp only [hq, if_true, List.length_cons]; exact Nat.le_succ_of_le ih
          | false => simpa [hq] using ih

theorem length_filter_add_le {α : Type} (p q r : α → Bool)
    (hpq : ∀ x, ¬(p x = true ∧ q x = true))
    (hpr : ∀ x, p x = true → r x = true) (hqr : ∀ x, q x = true → r x = true) :
    ∀ l : List α, (l.filter p).length + (l.filter q).length ≤ (l.filter r).length
  | [] => Nat.le_refl 0
  | x :: xs => by
      have ih := length_filter_add_le p q r hpq hpr hqr xs
      cases hp : p x with
      | true =>
          have hq : q x = false := by
            cases hqx : q x
            · rfl
            · exact absurd ⟨hp, hqx⟩ (hpq x)
          simp only [List.filter_cons, hp, hq, hpr x hp, if_true, if_false,
            Bool.false_eq_true, List.length_cons]
          omega
      | false =>
          cases hq : q x with
          | true =>
              simp only [List.filter_cons, hp, hq, hqr x hq, if_true, if_false,
                Bool.false_eq_true, List.length_cons]
              omega
          | false =>
              cases hr : r x <;>
                simp only [List.filter_cons, hp, hq, hr, if_true, if_false,
                  Bool.false_eq_true, List.length_cons] <;>
                omega

/-- C8 counterexample: after assigning the only container and then marking
it unhealthy (it stays Assigned), the per-tier counts double-count it, so
`idle + assigned + unhealthy ≤ total` fails on a reachable state. -/
theorem getPoolStatus_sum_exceeds_total :
    ¬(∀ p ∈ getPoolStatus cx8Final.current,
        p.idle + p.assigned + p.unhealthy ≤ p.total) := by
  decide

/-- C8 (amended): `get_pool_status` is a pure read of the store, and for
every tier its counts satisfy `idle + assigned ≤ total` and
`unhealthy ≤ total`; `idle + assigned + unhealthy` can exceed `total`
because `unhealthy` counts by the health flag independently of state. -/
theorem getPoolStatus_counts (db : Db) :
    ∀ p ∈ getPoolStatus db, p.idle + p.assigned ≤ p.total ∧ p.unhealthy ≤ p.total := by
  have key : ∀ l : Nat,
      (getPoolStatusLevel db l).idle + (getPoolStatusLevel db l).assigned ≤
        (getPoolStatusLevel db l).total ∧
      (getPoolStatusLevel db l).unhealthy ≤ (getPoolStatusLevel db l).total := by
    intro l
    constructor
    · apply length_filter_add_le
      · intro x ⟨h1, h2⟩
        simp only [Bool.and_eq_true, beq_iff_eq] at h1 h2
        exact absurd (h1.2 ▸ h2.2) (by decide)
      · intro x hx
        simp only [Bool.and_eq_true] at hx
        exact hx.1
      · intro x hx
        simp only [Bool.and_eq_true] at hx
        exact hx.1
    · apply length_filter_le_filter
      intro x hx
      simp only [Bool.and_eq_true] at hx
      exact hx.1
  intro p hp
  simp only [getPoolStatus, List.mem_map] at hp
  obtain ⟨l, _, rfl⟩ := hp
  exact key l

/-! ## Claim C10: cookie format -/

theorem wordBytes_lt (w : Nat) : ∀ b ∈ wordBytes w, b < 256 := by
  intro b hb
  simp only [wordBytes, List.mem_cons, List.not_mem_nil, or_false] at hb
  rcases hb with rfl | rfl | rfl | rfl <;> exact Nat.mod_lt _ (by norm_num)

theorem sha256Bytes_lt (msg : List Nat) : ∀ b ∈ sha256Bytes msg, b < 256 := by
  intro b hb
  simp only [sha256Bytes, List.mem_flatMap] at hb
  obtain ⟨w, _, hw⟩ := hb
  exact wordBytes_lt w b hw

theorem sha256Bytes_length (msg : List Nat) : (sha256Bytes msg).length = 32 := by
  simp [sha256Bytes, wordBytes]

theorem hexOfBytes_length : ∀ bs : List Nat, (hexOfBytes bs).length = 2 * bs.length
  | [] => rfl
  | b :: bs => by
      have ih := hexOfBytes_length bs
      unfold hexOfBytes at ih ⊢
      rw [List.flatMap_cons, List.length_append, ih, List.length_cons, List.length_cons,
        List.length_nil, List.length_cons]
      omega

theorem hexChar_hex (n : Nat) (hn : n < 16) :
    (48 ≤ (hexChar n).toNat ∧ (hexChar n).toNat ≤ 57) ∨
      (97 ≤ (hexChar n).toNat ∧ (hexChar n).toNat ≤ 102) := by
  interval_cases n <;> decide

theorem hexOfBytes_hex (bs : List Nat) (hbs : ∀ b ∈ bs, b < 256) :
    ∀ ch ∈ hexOfBytes bs,
      (48 ≤ ch.toNat ∧ ch.toNat ≤ 57) ∨ (97 ≤ ch.toNat ∧ ch.toNat ≤ 102) := by
  intro ch hch
  simp only [hexOfBytes, List.mem_flatMap] at hch
  obtain ⟨b, hb, hmem⟩ := hch
  have hb256 := hbs b hb
  simp only [List.mem_cons, List.not_mem_nil, or_false] at hmem
  rcases hmem with rfl | rfl
  · exact hexChar_hex _ ((Nat.div_lt_iff_lt_mul (by norm_num)).mpr (by omega))
  · exact hexChar_hex _ (Nat.mod_lt _ (by norm_num))

theorem hashValue16_length (s : String) : (hashValue16 s).length = 16 := by
  unfold hashValue16
  simp [List.length_take, hexOfBytes_length, sha256Bytes_length]

/-- C10: for every session id (and every value of the current-time string
that `generate_session_cookie` hashes), the result is the prefix
`dlsess_` followed by exactly 16 lowercase hexadecimal characters — total
length 23 — and the token depends on the time input: the same session id
hashed at two different times yields different tokens. -/
theorem generateSessionCookie_format :
    (∀ sessionId timeIso : String,
      ∃ h : List Char,
        (generateSessionCookie sessionId timeIso).data = "dlsess_".data ++ h ∧
        (generateSessionCookie sessionId timeIso).length = 23 ∧
        h.length = 16 ∧
        ∀ ch ∈ h, (48 ≤ ch.toNat ∧ ch.toNat ≤ 57) ∨ (97 ≤ ch.toNat ∧ ch.toNat ≤ 102)) ∧
    generateSessionCookie "a" "2026-01-01T00:00:00" ≠
      generateSessionCookie "a" "2026-01-01T00:00:01" := by
  constructor
  · intro sessionId timeIso
    refine ⟨hashValue16 (sessionId ++ ":" ++ timeIso), ?_, ?_, ?_, ?_⟩
    · unfold generateSessionCookie
      rw [String.data_append]
    · unfold generateSessionCookie
      rw [String.length_append]
      have h2 : (String.mk (hashValue16 (sessionId ++ ":" ++ timeIso))).length =
          (hashValue16 (sessionId ++ ":" ++ timeIso)).length := rfl
      rw [h2, hashValue16_length]
      rfl
    · exact hashValue16_length _
    · intro ch hch
      have hsub : ch ∈ hexOfBytes (sha256Bytes (strBytes (sessionId ++ ":" ++ timeIso))) :=
        List.take_subset 16 _ hch
      exact hexOfBytes_hex _ (sha256Bytes_lt _) ch hsub
  · decide

/-- Witness for the amended C8 theorem at the reachable counterexample
state. -/
theorem getPoolStatus_counts_witness :
    getPoolStatusLevel cx8Final.current 1 ∈ getPoolStatus cx8Final.current ∧
      ((getPoolStatusLevel cx8Final.current 1).idle +
          (getPoolStatusLevel cx8Final.current 1).assigned ≤
        (getPoolStatusLevel cx8Final.current 1).total ∧
       (getPoolStatusLevel cx8Final.current 1).unhealthy ≤
        (getPoolStatusLevel cx8Final.current 1).total) :=
  ⟨by decide, getPoolStatus_counts cx8Final.current _ (by decide)⟩

/-! ## Claim C1: exhaustion -/

theorem searchContainer_none_of_nil {db : Db} {t : Nat}
    (h : ∀ l, t ≤ l → getIdleContainersByLevel db l = []) : searchContainer db t = none := by
  have hfi : ∀ l, t ≤ l → findIdleContainer db l = none := by
    intro l hl
    unfold findIdleContainer
    rw [h l hl]
    rfl
  unfold searchContainer
  simp only [hfi t (Nat.le_refl t)]
  rw [List.findSome?_eq_none_iff]
  intro l hl
  exact hfi l (by have := List.mem_range'_1.mp hl; omega)

/-- C1 counterexample: with zero healthy Idle containers at the target
tier or above, a call for a session that already holds a suitable healthy
(Assigned) container does **not** return PoolExhausted — it returns the
held container. -/
theorem assignContainer_exhaustion_cx :
    (∀ c ∈ (ormOf cx1Db).current.containers, 1 ≤ c.level →
      ¬(c.state = "idle" ∧ c.healthy = true)) ∧
    (assignContainer (ormOf cx1Db) "s" 1 50 100).1 = some (mkAssigned "c2" 2 "s") := by
  decide

/-- C1 (amended): if no healthy Idle container exists at the target tier
or above and the session holds no container, the call returns
PoolExhausted; and every call that returns PoolExhausted commits nothing,
so the persisted store is unchanged — no session record is persisted or
modified and no container's persisted state or `assigned_session_id`
changes (the in-transaction release of a held container is never
committed by this call). -/
theorem assignContainer_exhaustion_frame (o : Orm) (sid : String) (t now ttl : Nat) :
    ((∀ c ∈ o.current.containers, t ≤ c.level → ¬(c.state = "idle" ∧ c.healthy = true)) →
      (getSessionById o.current sid).bind (fun s => s.containerId) = none →
      (assignContainer o sid t now ttl).1 = none) ∧
    ((assignContainer o sid t now ttl).1 = none →
      (assignContainer o sid t now ttl).2.persisted = o.persisted) := by
  constructor
  · intro hno hheld
    cases hs : getSessionById o.current sid with
    | none =>
        have hsearch : searchContainer (addSession o.current (newSession sid now)) t = none := by
          apply searchContainer_none_of_nil
          intro l hl
          rw [getIdle_congr (containers_addSession o.current (newSession sid now)) l]
          exact getIdle_eq_nil_of_exhausted hno l hl
        rw [assignContainer_exhausted_new now ttl hs hsearch]
    | some s =>
        rw [hs] at hheld
        have hcid : s.containerId = none := hheld
        have hi : idemCond o.current sid t = false := by
          simp only [idemCond, hs, hcid]
        have hrel : heldRelease o.current s = o.current := by
          simp only [heldRelease, hcid]
        have hsearch : searchContainer (heldRelease o.current s) t = none := by
          rw [hrel]
          exact searchContainer_none_of_nil (getIdle_eq_nil_of_exhausted hno)
        rw [assignContainer_exhausted now ttl hs hi hsearch]
  · intro hres
    cases hs : getSessionById o.current sid with
    | none =>
        cases hsearch : searchContainer (addSession o.current (newSession sid now)) t with
        | none => rw [assignContainer_exhausted_new now ttl hs hsearch]
        | some c =>
            rw [assignContainer_alloc_new now ttl hs hsearch] at hres
            simp at hres
    | some s =>
        cases hb : idemCond o.current sid t with
        | true => rw [assignContainer_idem now ttl hs hb]
        | false =>
            cases hsearch : searchContainer (heldRelease o.current s) t with
            | none => rw [assignContainer_exhausted now ttl hs hb hsearch]
            | some c =>
                rw [assignContainer_alloc now ttl hs hb hsearch] at hres
                simp at hres

/-- Witness for the amended C1 theorem: an unknown session id against a
store with no Idle containers. -/
theorem assignContainer_exhaustion_frame_witness :
    (∀ c ∈ (ormOf cx1Db).current.containers, 1 ≤ c.level →
      ¬(c.state = "idle" ∧ c.healthy = true)) ∧
    ((getSessionById (ormOf cx1Db).current "t").bind (fun s => s.containerId) = none) ∧
    (assignContainer (ormOf cx1Db) "t" 1 0 100).1 = none ∧
    (assignContainer (ormOf cx1Db) "t" 1 0 100).2.persisted = (ormOf cx1Db).persisted :=
  ⟨by decide, by decide,
   (assignContainer_exhaustion_frame (ormOf cx1Db) "t" 1 0 100).1 (by decide) (by decide),
   (assignContainer_exhaustion_frame (ormOf cx1Db) "t" 1 0 100).2
     ((assignContainer_exhaustion_frame (ormOf cx1Db) "t" 1 0 100).1
       (by decide) (by decide))⟩

/-! ## Claim C2: fallback order -/

theorem commit_persisted (o : Orm) (db : Db) :
    (Orm.commit { o with current := db }).persisted = db := rfl

theorem getContainerById_some_id {db : Db} {cid : String} {cc : Container}
    (h : getContainerById db cid = some cc) : cc.id = cid := by
  unfold getContainerById at h
  have h2 := List.find?_some h
  rwa [beq_iff_eq] at h2

theorem getContainerById_mem {db : Db} {cid : String} {cc : Container}
    (h : getContainerById db cid = some cc) : cc ∈ db.containers := by
  unfold getContainerById at h
  exact List.mem_of_find?_eq_some h

theorem getSessionById_some_id {db : Db} {sid : String} {s : Session}
    (h : getSessionById db sid = some s) : s.id = sid := by
  unfold getSessionById at h
  have h2 := List.find?_some h
  rwa [beq_iff_eq] at h2

/-- Releasing a held container that is unhealthy or sits below the target
tier does not change the Idle pools at the target tier or above. -/
theorem getIdle_releaseContainer_eq {db : Db} {cid : String} {cc : Container} {t : Nat}
    (hnd : (db.containers.map (fun c => c.id)).Nodup)
    (hlook : getContainerById db cid = some cc)
    (hcc : cc.healthy = false ∨ cc.level < t) :
    ∀ l, t ≤ l →
      getIdleContainersByLevel (releaseContainer db cid) l =
        getIdleContainersByLevel db l := by
  intro l hl
  simp only [releaseContainer, hlook]
  unfold getIdleContainersByLevel updateContainer
  apply filter_map_pointwise
  intro x hx
  by_cases hid : (x.id == cid) = true
  · have hccmem : cc ∈ db.containers := getContainerById_mem hlook
    have hccid : cc.id = cid := getContainerById_some_id hlook
    have hx_cc : x = cc := by
      apply eq_of_key_of_nodup (fun c => c.id) db.containers hnd x hx cc hccmem
      rw [beq_iff_eq] at hid
      rw [hid, hccid]
    subst hx_cc
    left
    rcases hcc with h | h
    · constructor
      · simp only [hid, if_true]
        simp [idleMark, h]
      · simp [h]
    · have hlvl : (x.level == l) = false := by
        rw [beq_eq_false_iff_ne]
        omega
      constructor
      · simp only [hid, if_true]
        simp [idleMark, hlvl]
      · simp [hlvl]
  · right
    simp [hid]

/-- The session record after a successful allocation. -/
theorem getSessionById_after_alloc (db1 : Db) (sid : String) (c0 : Container) (now ttl : Nat)
    {s : Session} (hs1 : getSessionById db1 sid = some s) (hid : s.id = sid) :
    getSessionById
      (updateSession (updateContainer db1 c0.id (assignedMark sid)) sid
        (sessionMark c0.id c0.level now ttl)) sid =
      some (sessionMark c0.id c0.level now ttl s) := by
  rw [getSessionById_updateSession (updateContainer db1 c0.id (assignedMark sid)) sid sid
      (sessionMark c0.id c0.level now ttl) (fun x => rfl),
    getSessionById_congr sid (sessions_updateContainer db1 c0.id _), hs1]
  simp [hid]

/-- C2: on a call that performs a new allocation and succeeds, the
container is a healthy Idle one at the target tier if that tier has one,
otherwise at the least tier strictly above the target that has one; tiers
below the target are never considered; and the session's `current_tier` is
set to the allocated container's tier.  (The hypotheses: distinct container
ids, the data-model invariant that a held container's tier equals the
session's `current_tier`, and that the call is not the idempotent
short-circuit.) -/
theorem assignContainer_fallback_order (o : Orm) (sid : String) (t now ttl : Nat)
    (hnd : (o.current.containers.map (fun c => c.id)).Nodup)
    (hinv : ∀ cid, (getSessionById o.current sid).bind (fun s => s.containerId) = some cid →
      (getContainerById o.current cid).map (fun c => c.level) =
        (getSessionById o.current sid).map (fun s => s.currentLevel))
    (hni : idemCond o.current sid t = false)
    (c : Container) (hres : (assignContainer o sid t now ttl).1 = some c) :
    t ≤ c.level ∧
    (∃ c0, c0 ∈ getIdleContainersByLevel o.current c.level ∧
      c = { c0 with state := "assigned", assignedSessionId := some sid }) ∧
    (getIdleContainersByLevel o.current t ≠ [] → c.level = t) ∧
    (∀ m, t ≤ m → m < c.level → getIdleContainersByLevel o.current m = []) ∧
    (∃ s2, getSessionById (assignContainer o sid t now ttl).2.persisted sid = some s2 ∧
      s2.currentLevel = c.level) := by
  cases hs : getSessionById o.current sid with
  | none =>
      cases hsearch : searchContainer (addSession o.current (newSession sid now)) t with
      | none =>
          rw [assignContainer_exhausted_new now ttl hs hsearch] at hres
          simp at hres
      | some c0 =>
          have hform := assignContainer_alloc_new now ttl hs hsearch
          rw [hform] at hres
          have hc : assignedMark sid c0 = c := by simpa using hres
          subst hc
          have hsr : searchContainer o.current t = some c0 := by
            rw [← searchContainer_congr t
              (fun l _ => getIdle_congr (containers_addSession o.current (newSession sid now)) l)]
            exact hsearch
          obtain ⟨hmem, hst, hh, hle, hat, hbelow⟩ := searchContainer_some hsr
          refine ⟨hle, ⟨c0, hmem, rfl⟩, hat, hbelow,
            ⟨sessionMark c0.id c0.level now ttl (newSession sid now), ?_, rfl⟩⟩
          rw [hform]
          exact getSessionById_after_alloc _ sid c0 now ttl
            (getSessionById_addSession_new now hs) rfl
  | some s =>
      cases hcid : s.containerId with
      | none =>
          have hrel : heldRelease o.current s = o.current := by
            simp only [heldRelease, hcid]
          cases hsearch : searchContainer (heldRelease o.current s) t with
          | none =>
              rw [assignContainer_exhausted now ttl hs hni hsearch] at hres
              simp at hres
          | some c0 =>
              have hform := assignContainer_alloc now ttl hs hni hsearch
              rw [hform] at hres
              have hc : assignedMark sid c0 = c := by simpa using hres
              subst hc
              have hsr : searchContainer o.current t = some c0 := by
                rw [← hrel]
                exact hsearch
              obtain ⟨hmem, hst, hh, hle, hat, hbelow⟩ := searchContainer_some hsr
              refine ⟨hle, ⟨c0, hmem, rfl⟩, hat, hbelow,
                ⟨sessionMark c0.id c0.level now ttl s, ?_, rfl⟩⟩
              rw [hform]
              exact getSessionById_after_alloc _ sid c0 now ttl
                (by rw [hrel]; exact hs) (getSessionById_some_id hs)
      | some cid =>
          have hbind : (getSessionById o.current sid).bind (fun x => x.containerId) =
              some cid := by
            rw [hs]
            exact hcid
          have hmap := hinv cid hbind
          rw [hs, Option.map_some'] at hmap
          obtain ⟨cc, hlook, hlvl⟩ := Option.map_eq_some'.mp hmap
          have hcase : cc.healthy = false ∨ s.currentLevel < t := by
            by_contra hcon
            push_neg at hcon
            have hh : cc.healthy = true := by
              cases hcb : cc.healthy
              · exact absurd hcb hcon.1
              · rfl
            have ht : t ≤ s.currentLevel := hcon.2
            have hit : idemCond o.current sid t = true := by
              simp only [idemCond, hs, hcid, hlook, hh, Bool.and_true]
              simp [ht]
            rw [hni] at hit
            exact Bool.false_ne_true hit
          have hcc2 : cc.healthy = false ∨ cc.level < t := by
            rcases hcase with h | h
            · exact Or.inl h
            · exact Or.inr (by omega)
          have hrel : heldRelease o.current s = releaseContainer o.current cid := by
            simp only [heldRelease, hcid]
          have hid2 : ∀ l, t ≤ l →
              getIdleContainersByLevel (heldRelease o.current s) l =
                getIdleContainersByLevel o.current l := by
            rw [hrel]
            exact getIdle_releaseContainer_eq hnd hlook hcc2
          cases hsearch : searchContainer (heldRelease o.current s) t with
          | none =>
              rw [assignContainer_exhausted now ttl hs hni hsearch] at hres
              simp at hres
          | some c0 =>
              have hform := assignContainer_alloc now ttl hs hni hsearch
              rw [hform] at hres
              have hc : assignedMark sid c0 = c := by simpa using hres
              subst hc
              have hsr : searchContainer o.current t = some c0 := by
                rw [← searchContainer_congr t hid2]
                exact hsearch
              obtain ⟨hmem, hst, hh, hle, hat, hbelow⟩ := searchContainer_some hsr
              refine ⟨hle, ⟨c0, hmem, rfl⟩, hat, hbelow,
                ⟨sessionMark c0.id c0.level now ttl s, ?_, rfl⟩⟩
              rw [hform]
              exact getSessionById_after_alloc _ sid c0 now ttl
                (by rw [hrel, getSessionById_releaseContainer]; exact hs)
                (getSessionById_some_id hs)

/-- Witness for C2 at the spec's fallback scenario: no Idle container at
tier 1, one at tier 2; the tier-2 container is allocated and the session's
tier becomes 2. -/
theorem assignContainer_fallback_order_witness :
    ((ormOf w2Db).current.containers.map (fun c => c.id)).Nodup ∧
    idemCond (ormOf w2Db).current "s" 1 = false ∧
    (assignContainer (ormOf w2Db) "s" 1 0 100).1 = some w2Res ∧
    (1 ≤ w2Res.level ∧
      (∃ c0, c0 ∈ getIdleContainersByLevel (ormOf w2Db).current w2Res.level ∧
        w2Res = { c0 with state := "assigned", assignedSessionId := some "s" }) ∧
      (getIdleContainersByLevel (ormOf w2Db).current 1 ≠ [] → w2Res.level = 1) ∧
      (∀ m, 1 ≤ m → m < w2Res.level → getIdleContainersByLevel (ormOf w2Db).current m = []) ∧
      (∃ s2, getSessionById (assignContainer (ormOf w2Db) "s" 1 0 100).2.persisted "s" =
          some s2 ∧ s2.currentLevel = w2Res.level)) :=
  ⟨by decide, by decide, by decide,
   assignContainer_fallback_order (ormOf w2Db) "s" 1 0 100 (by decide)
     (fun cid hcid => nomatch hcid) (by decide) w2Res (by decide)⟩

/-! ## Claim C4: idempotence of repeated assignment -/

theorem getSessionById_heldRelease (db : Db) (s : Session) (sid : String) :
    getSessionById (heldRelease db s) sid = getSessionById db sid := by
  unfold heldRelease
  cases s.containerId with
  | none => rfl
  | some cid => exact getSessionById_releaseContainer db cid sid

theorem ids_heldRelease (db : Db) (s : Session) :
    (heldRelease db s).containers.map (fun c => c.id) = db.containers.map (fun c => c.id) := by
  unfold heldRelease
  cases s.containerId with
  | none => rfl
  | some cid => exact ids_releaseContainer db cid

/-- After a successful allocation the session holds the allocated
container, which is healthy and Assigned, so an immediately repeated call
with the same target takes the idempotent branch: it returns the same
container and leaves the ORM state untouched. -/
theorem assignContainer_post_alloc_idem (sid : String) (t now ttl now2 ttl2 : Nat)
    {db1 : Db} {c0 : Container} {s : Session}
    (hnd1 : (db1.containers.map (fun c => c.id)).Nodup)
    (hs1 : getSessionById db1 sid = some s) (hid : s.id = sid)
    (hsr : searchContainer db1 t = some c0)
    (o1 : Orm)
    (ho1c : o1.current =
      updateSession (updateContainer db1 c0.id (assignedMark sid)) sid
        (sessionMark c0.id c0.level now ttl)) :
    assignContainer o1 sid t now2 ttl2 = (some (assignedMark sid c0), o1) := by
  obtain ⟨hmem, hst, hh, hle, _, _⟩ := searchContainer_some hsr
  have hs2 : getSessionById o1.current sid = some (sessionMark c0.id c0.level now ttl s) := by
    rw [ho1c]
    exact getSessionById_after_alloc db1 sid c0 now ttl hs1 hid
  have hc0mem : c0 ∈ db1.containers := (List.mem_filter.mp hmem).1
  have hc0 : getContainerById db1 c0.id = some c0 := by
    unfold getContainerById
    exact find?_key_of_nodup (fun c => c.id) db1.containers hnd1 c0 hc0mem
  have hlook2 : getContainerById o1.current c0.id = some (assignedMark sid c0) := by
    rw [ho1c, getContainerById_congr c0.id
        (containers_updateSession (updateContainer db1 c0.id (assignedMark sid)) sid _),
      getContainerById_updateContainer db1 c0.id c0.id (assignedMark sid) (fun x => rfl), hc0]
    simp
  have hilem : idemCond o1.current sid t = true := by
    unfold idemCond
    rw [hs2]
    simp [sessionMark, assignedMark, hlook2, hh, hle]
  rw [assignContainer_idem now2 ttl2 hs2 hilem]
  show (getContainerById o1.current c0.id, o1) = _
  rw [hlook2]

/-- C4 counterexample: when the session already holds a suitable healthy
container, both calls of the pair are idempotent no-ops — the same
container is returned twice but `escalation_count` (5 before) is not
incremented at all, so "increments exactly once" fails. -/
theorem assignContainer_idem_pair_cx :
    (assignContainer (ormOf cx4Db) "s" 2 0 100).1 = some (mkAssigned "c2" 2 "s") ∧
    (assignContainer (assignContainer (ormOf cx4Db) "s" 2 0 100).2 "s" 2 10 100).1 =
      some (mkAssigned "c2" 2 "s") ∧
    ((getSessionById (assignContainer (assignContainer (ormOf cx4Db) "s" 2 0 100).2
        "s" 2 10 100).2.current "s").map (fun s => s.escalationCount)) = some 5 := by
  decide

/-- C4 (amended): calling `assign_container` twice in a row with the same
session id and target tier, when the first call succeeds, returns the same
container from both calls, and the second call is a complete no-op on the
ORM state (so it neither increments `escalation_count` nor changes
`expires_at` and performs no new allocation); across the pair,
`escalation_count` rises by exactly one when the first call performs a new
allocation, and not at all when the first call is already the idempotent
no-op. -/
theorem assignContainer_pair_idem (o : Orm) (sid : String) (t now ttl now2 ttl2 : Nat)
    (hnd : (o.current.containers.map (fun c => c.id)).Nodup)
    (c : Container) (hres : (assignContainer o sid t now ttl).1 = some c) :
    assignContainer (assignContainer o sid t now ttl).2 sid t now2 ttl2 =
      (some c, (assignContainer o sid t now ttl).2) ∧
    (idemCond o.current sid t = false →
      ∃ s2, getSessionById (assignContainer o sid t now ttl).2.current sid = some s2 ∧
        s2.escalationCount =
          ((getSessionById o.current sid).map (fun s => s.escalationCount)).getD 0 + 1) := by
  cases hs : getSessionById o.current sid with
  | none =>
      cases hsearch : searchContainer (addSession o.current (newSession sid now)) t with
      | none =>
          rw [assignContainer_exhausted_new now ttl hs hsearch] at hres
          simp at hres
      | some c0 =>
          have hform := assignContainer_alloc_new now ttl hs hsearch
          rw [hform] at hres
          have hc : assignedMark sid c0 = c := by simpa using hres
          subst hc
          have hnd1 : ((addSession o.current (newSession sid now)).containers.map
              (fun c => c.id)).Nodup := by
            rw [containers_addSession]
            exact hnd
          have hsecond := assignContainer_post_alloc_idem sid t now ttl now2 ttl2 hnd1
            (getSessionById_addSession_new now hs) rfl hsearch
            (assignContainer o sid t now ttl).2 (by rw [hform]; rfl)
          refine ⟨hsecond, fun _ => ?_⟩
          refine ⟨sessionMark c0.id c0.level now ttl (newSession sid now), ?_, rfl⟩
          rw [hform]
          exact getSessionById_after_alloc _ sid c0 now ttl
            (getSessionById_addSession_new now hs) rfl
  | some s =>
      cases hb : idemCond o.current sid t with
      | true =>
          have hform := assignContainer_idem now ttl hs hb
          rw [hform] at hres
          have hres2 : getContainerById o.current (s.containerId.getD "") = some c := hres
          constructor
          · rw [hform]
            show assignContainer o sid t now2 ttl2 = (some c, o)
            rw [assignContainer_idem now2 ttl2 hs hb, hres2]
          · intro hfalse
            exact absurd hfalse (by decide)
      | false =>
          cases hsearch : searchContainer (heldRelease o.current s) t with
          | none =>
              rw [assignContainer_exhausted now ttl hs hb hsearch] at hres
              simp at hres
          | some c0 =>
              have hform := assignContainer_alloc now ttl hs hb hsearch
              rw [hform] at hres
              have hc : assignedMark sid c0 = c := by simpa using hres
              subst hc
              have hnd1 : ((heldRelease o.current s).containers.map (fun c => c.id)).Nodup := by
                rw [ids_heldRelease]
                exact hnd
              have hsecond := assignContainer_post_alloc_idem sid t now ttl now2 ttl2 hnd1
                (by rw [getSessionById_heldRelease]; exact hs) (getSessionById_some_id hs)
                hsearch (assignContainer o sid t now ttl).2 (by rw [hform]; rfl)
              refine ⟨hsecond, fun _ => ?_⟩
              refine ⟨sessionMark c0.id c0.level now ttl s, ?_, rfl⟩
              rw [hform]
              exact getSessionById_after_alloc _ sid c0 now ttl
                (by rw [getSessionById_heldRelease]; exact hs) (getSessionById_some_id hs)

/-- Witness for the amended C4 theorem: a fresh session allocating the only
tier-1 container; the second call returns the same container and changes
nothing, and `escalation_count` ends at 1. -/
theorem assignContainer_pair_idem_witness :
    ((ormOf { emptyDb with containers := [mkIdle "c1" 1] }).current.containers.map
        (fun c => c.id)).Nodup ∧
    (assignContainer (ormOf { emptyDb with containers := [mkIdle "c1" 1] }) "s" 1 0 100).1 =
      some { mkIdle "c1" 1 with state := "assigned", assignedSessionId := some "s" } ∧
    assignContainer
        (assignContainer (ormOf { emptyDb with containers := [mkIdle "c1" 1] }) "s" 1 0 100).2
        "s" 1 7 200 =
      (some { mkIdle "c1" 1 with state := "assigned", assignedSessionId := some "s" },
       (assignContainer (ormOf { emptyDb with containers := [mkIdle "c1" 1] }) "s" 1 0 100).2) :=
  ⟨by decide, by decide,
   (assignContainer_pair_idem (ormOf { emptyDb with containers := [mkIdle "c1" 1] })
     "s" 1 0 100 7 200 (by decide)
     { mkIdle "c1" 1 with state := "assigned", assignedSessionId := some "s" }
     (by decide)).1⟩

/-! ## Claim C9: tier monotonicity -/

theorem releaseSession_none {o : Orm} {sid : String} (now : Nat)
    (hs : getSessionById o.current sid = none) : releaseSession o sid now = (false, o) := by
  unfold releaseSession
  simp only [hs]

theorem releaseSession_some {o : Orm} {sid : String} (now : Nat) {s : Session}
    (hs : getSessionById o.current sid = some s) :
    releaseSession o sid now =
      (true, Orm.commit
        { o with current := updateSession (heldRelease o.current s) sid (releasedMark now) }) := by
  unfold releaseSession
  simp only [hs]

/-- Releasing any session keeps every session record present and its
`current_level` unchanged. -/
theorem releaseSession_level (o : Orm) (sid : String) (now : Nat) (sid2 : String) {s1 : Session}
    (h : getSessionById o.current sid2 = some s1) :
    ∃ s2, getSessionById (releaseSession o sid now).2.current sid2 = some s2 ∧
      s2.currentLevel = s1.currentLevel ∧ s2.id = s1.id := by
  cases hl : getSessionById o.current sid with
  | none =>
      rw [releaseSession_none now hl]
      exact ⟨s1, h, rfl, rfl⟩
  | some sx =>
      rw [releaseSession_some now hl]
      have h2 : getSessionById
          (updateSession (heldRelease o.current sx) sid (releasedMark now)) sid2 =
          some (if s1.id == sid then releasedMark now s1 else s1) := by
        rw [getSessionById_updateSession (heldRelease o.current sx) sid sid2 (releasedMark now)
          (fun x => rfl), getSessionById_heldRelease, h]
        rfl
      refine ⟨_, h2, ?_, ?_⟩ <;> by_cases hcase : (s1.id == sid) = true <;>
        simp [hcase, releasedMark]

theorem foldRelease_level (now : Nat) :
    ∀ (L : List Session) (o : Orm) (sid2 : String) (s1 : Session),
      getSessionById o.current sid2 = some s1 →
      ∃ s2, getSessionById
          ((L.foldl (fun acc x => (releaseSession acc x.id now).2) o)).current sid2 = some s2 ∧
        s2.currentLevel = s1.currentLevel
  | [], o, sid2, s1, h => ⟨s1, h, rfl⟩
  | x :: xs, o, sid2, s1, h => by
      obtain ⟨s2, h1, h2, _⟩ := releaseSession_level o x.id now sid2 h
      obtain ⟨s3, h3, h4⟩ := foldRelease_level now xs (releaseSession o x.id now).2 sid2 s2 h1
      exact ⟨s3, h3, h4.trans h2⟩

theorem markContainerHealth_sessions (o : Orm) (cid : String) (b : Bool) (now : Nat) :
    (markContainerHealth o cid b now).current.sessions = o.current.sessions := by
  unfold markContainerHealth
  cases getContainerById o.current cid <;> rfl

/-- C9 counterexample trace: the session gets the tier-3 container, the
container is marked unhealthy, and a further AssignContainer at tier 1
re-allocates — dropping `current_tier` from 3 to 1 under the same session
id. -/
theorem currentLevel_decreases_cx :
    ((getSessionById (assignContainer (ormOf cx9Db) "s" 3 0 100).2.current "s").map
      (fun s => s.currentLevel)) = some 3 ∧
    ((getSessionById cx9Final.current "s").map (fun s => s.currentLevel)) = some 1 := by
  decide

/-- C9 (amended): a session's `current_tier` never decreases as long as the
container it holds stays healthy: an AssignContainer call for a session
that holds a healthy container never lowers its tier, and ReleaseSession,
CleanupExpired and container-health updates never change any session's
tier; but once the held container is unhealthy (or the session was
released), a further AssignContainer under the same id may set a lower
tier. -/
theorem currentLevel_monotone :
    (∀ (o : Orm) (sid : String) (t now ttl : Nat) (s : Session) (cid : String) (cc : Container),
      getSessionById o.current sid = some s → s.containerId = some cid →
      getContainerById o.current cid = some cc → cc.healthy = true →
      ∀ s2, getSessionById (assignContainer o sid t now ttl).2.current sid = some s2 →
        s.currentLevel ≤ s2.currentLevel) ∧
    (∀ (o : Orm) (sid : String) (now : Nat) (sid2 : String) (s1 : Session),
      getSessionById o.current sid2 = some s1 →
      ∀ s2, getSessionById (releaseSession o sid now).2.current sid2 = some s2 →
        s2.currentLevel = s1.currentLevel) ∧
    (∀ (o : Orm) (now : Nat) (sid2 : String) (s1 : Session),
      getSessionById o.current sid2 = some s1 →
      ∀ s2, getSessionById (cleanupExpiredSessions o now).2.current sid2 = some s2 →
        s2.currentLevel = s1.currentLevel) ∧
    (∀ (o : Orm) (cid : String) (b : Bool) (now : Nat) (sid2 : String),
      getSessionById (markContainerHealth o cid b now).current sid2 =
        getSessionById o.current sid2) := by
  refine ⟨?_, ?_, ?_, ?_⟩
  · intro o sid t now ttl s cid cc hs hcid hlook hh
    cases hb : idemCond o.current sid t with
    | true =>
        have hform := assignContainer_idem now ttl hs hb
        intro s2 hs2
        rw [hform] at hs2
        have h1 : getSessionById o.current sid = some s2 := hs2
        rw [hs] at h1
        cases h1
        exact Nat.le_refl _
    | false =>
        have hlt : s.currentLevel < t := by
          by_contra hcon
          have ht : t ≤ s.currentLevel := Nat.le_of_not_lt hcon
          have hit : idemCond o.current sid t = true := by
            simp only [idemCond, hs, hcid, hlook, hh, Bool.and_true]
            simp [ht]
          rw [hb] at hit
          exact absurd hit (by decide)
        cases hsearch : searchContainer (heldRelease o.current s) t with
        | none =>
            have hform := assignContainer_exhausted now ttl hs hb hsearch
            intro s2 hs2
            rw [hform] at hs2
            have h1 : getSessionById (heldRelease o.current s) sid = some s2 := hs2
            rw [getSessionById_heldRelease, hs] at h1
            cases h1
            exact Nat.le_refl _
        | some c0 =>
            have hform := assignContainer_alloc now ttl hs hb hsearch
            obtain ⟨_, _, _, hle, _, _⟩ := searchContainer_some hsearch
            intro s2 hs2
            rw [hform] at hs2
            have h1 : getSessionById
                (updateSession (updateContainer (heldRelease o.current s) c0.id
                  (assignedMark sid)) sid (sessionMark c0.id c0.level now ttl)) sid =
                some s2 := hs2
            rw [getSessionById_after_alloc _ sid c0 now ttl
              (by rw [getSessionById_heldRelease]; exact hs) (getSessionById_some_id hs)] at h1
            cases h1
            show s.currentLevel ≤ c0.level
            omega
  · intro o sid now sid2 s1 h s2 hs2
    obtain ⟨s3, h1, h2, _⟩ := releaseSession_level o sid now sid2 h
    rw [hs2] at h1
    cases h1
    exact h2
  · intro o now sid2 s1 h s2 hs2
    obtain ⟨s3, h1, h2⟩ := foldRelease_level now (expiredScan o.current now) o sid2 s1 h
    have h1' : getSessionById (cleanupExpiredSessions o now).2.current sid2 = some s3 := h1
    rw [hs2] at h1'
    cases h1'
    exact h2
  · intro o cid b now sid2
    exact getSessionById_congr sid2 (markContainerHealth_sessions o cid b now)

/-- Witness for the amended C9 theorem: escalating a session that holds a
healthy tier-1 container to tier 2 raises its tier, never lowering it. -/
theorem currentLevel_monotone_witness :
    getSessionById (ormOf w9Db).current "s" = some (mkHolding "s" 1 "c1" 1 500) ∧
    (mkHolding "s" 1 "c1" 1 500).containerId = some "c1" ∧
    getContainerById (ormOf w9Db).current "c1" = some (mkAssigned "c1" 1 "s") ∧
    (mkAssigned "c1" 1 "s").healthy = true ∧
    (∀ s2, getSessionById (assignContainer (ormOf w9Db) "s" 2 5 100).2.current "s" = some s2 →
      (mkHolding "s" 1 "c1" 1 500).currentLevel ≤ s2.currentLevel) :=
  ⟨by decide, by decide, by decide, by decide,
   currentLevel_monotone.1 (ormOf w9Db) "s" 2 5 100 (mkHolding "s" 1 "c1" 1 500) "c1"
     (mkAssigned "c1" 1 "s") (by decide) (by decide) (by decide) (by decide)⟩

/-! ## Claim C3: expiry sweep -/

theorem sessionReleasedIn_release {o : Orm} {sid2 : String} (now : Nat) {sid : String}
    (hP : sessionReleasedIn o.current sid) :
    sessionReleasedIn (releaseSession o sid2 now).2.current sid := by
  cases hl : getSessionById o.current sid2 with
  | none =>
      rw [releaseSession_none now hl]
      exact hP
  | some sx =>
      rw [releaseSession_some now hl]
      intro s2 h2
      have h3 : getSessionById
          (updateSession (heldRelease o.current sx) sid2 (releasedMark now)) sid = some s2 := h2
      rw [getSessionById_updateSession (heldRelease o.current sx) sid2 sid (releasedMark now)
        (fun x => rfl), getSessionById_heldRelease] at h3
      cases hcur : getSessionById o.current sid with
      | none =>
          rw [hcur] at h3
          simp at h3
      | some s1 =>
          rw [hcur] at h3
          have h4 : (if s1.id == sid2 then releasedMark now s1 else s1) = s2 := by
            simpa using h3
          by_cases hcase : (s1.id == sid2) = true
          · rw [← h4]
            simp [hcase, releasedMark]
          · rw [← h4]
            simp only [hcase, if_false, Bool.false_eq_true]
            exact hP s1 hcur

theorem containerIdleIn_releaseContainer {db : Db} {cid2 cid : String}
    (hP : containerIdleIn db cid) : containerIdleIn (releaseContainer db cid2) cid := by
  cases hl : getContainerById db cid2 with
  | none =>
      have hrw : releaseContainer db cid2 = db := by simp only [releaseContainer, hl]
      rw [hrw]
      exact hP
  | some cx =>
      have hrw : releaseContainer db cid2 = updateContainer db cid2 idleMark := by
        simp only [releaseContainer, hl]
      rw [hrw]
      intro c2 h2
      rw [getContainerById_updateContainer db cid2 cid idleMark (fun x => rfl)] at h2
      cases hc : getContainerById db cid with
      | none =>
          rw [hc] at h2
          simp at h2
      | some cy =>
          rw [hc] at h2
          have h4 : (if cy.id == cid2 then idleMark cy else cy) = c2 := by
            simpa using h2
          by_cases hcase : (cy.id == cid2) = true
          · rw [← h4]
            simp [hcase, idleMark]
          · rw [← h4]
            simp only [hcase, if_false, Bool.false_eq_true]
            exact hP cy hc

theorem containerIdleIn_heldRelease {db : Db} {sx : Session} {cid : String}
    (hP : containerIdleIn db cid) : containerIdleIn (heldRelease db sx) cid := by
  unfold heldRelease
  cases sx.containerId with
  | none => exact hP
  | some cid2 => exact containerIdleIn_releaseContainer hP

theorem containerIdleIn_release {o : Orm} {sid2 : String} (now : Nat) {cid : String}
    (hP : containerIdleIn o.current cid) :
    containerIdleIn (releaseSession o sid2 now).2.current cid := by
  cases hl : getSessionById o.current sid2 with
  | none =>
      rw [releaseSession_none now hl]
      exact hP
  | some sx =>
      rw [releaseSession_some now hl]
      intro c2 h2
      have h2b : getContainerById
          (updateSession (heldRelease o.current sx) sid2 (releasedMark now)) cid = some c2 := h2
      rw [getContainerById_congr cid
        (containers_updateSession (heldRelease o.current sx) sid2 _)] at h2b
      exact containerIdleIn_heldRelease hP c2 h2b

/-- Releasing a present session marks it Released and idles its held
container. -/
theorem releaseSession_establishes {o : Orm} {sid : String} (now : Nat) {s : Session}
    (hs : getSessionById o.current sid = some s) :
    sessionReleasedIn (releaseSession o sid now).2.current sid ∧
    ∀ cid, s.containerId = some cid →
      containerIdleIn (releaseSession o sid now).2.current cid := by
  rw [releaseSession_some now hs]
  constructor
  · intro s2 h2
    have h3 : getSessionById
        (updateSession (heldRelease o.current s) sid (releasedMark now)) sid = some s2 := h2
    rw [getSessionById_updateSession (heldRelease o.current s) sid sid (releasedMark now)
      (fun x => rfl), getSessionById_heldRelease, hs] at h3
    have h4 : (if s.id == sid then releasedMark now s else s) = s2 := by simpa using h3
    rw [← h4]
    simp [getSessionById_some_id hs, releasedMark]
  · intro cid hcid c2 h2
    have h2b : getContainerById
        (updateSession (heldRelease o.current s) sid (releasedMark now)) cid = some c2 := h2
    rw [getContainerById_congr cid
      (containers_updateSession (heldRelease o.current s) sid _)] at h2b
    rw [show heldRelease o.current s = releaseContainer o.current cid by
      simp only [heldRelease, hcid]] at h2b
    cases hl : getContainerById o.current cid with
    | none =>
        rw [show releaseContainer o.current cid = o.current by
          simp only [releaseContainer, hl], hl] at h2b
        simp at h2b
    | some cx =>
        rw [show releaseContainer o.current cid = updateContainer o.current cid idleMark by
            simp only [releaseContainer, hl],
          getContainerById_updateContainer o.current cid cid idleMark (fun x => rfl),
          hl] at h2b
        have h4 : (if cx.id == cid then idleMark cx else cx) = c2 := by
          simpa using h2b
        rw [← h4]
        simp [getContainerById_some_id hl, idleMark]

theorem foldRelease_pres_sess (now : Nat) (sid : String) :
    ∀ (L : List Session) (o : Orm), sessionReleasedIn o.current sid →
      sessionReleasedIn
        ((L.foldl (fun acc x => (releaseSession acc x.id now).2) o)).current sid
  | [], _, h => h
  | x :: xs, o, h =>
      foldRelease_pres_sess now sid xs (releaseSession o x.id now).2
        (sessionReleasedIn_release now h)

theorem foldRelease_pres_cont (now : Nat) (cid : String) :
    ∀ (L : List Session) (o : Orm), containerIdleIn o.current cid →
      containerIdleIn
        ((L.foldl (fun acc x => (releaseSession acc x.id now).2) o)).current cid
  | [], _, h => h
  | x :: xs, o, h =>
      foldRelease_pres_cont now cid xs (releaseSession o x.id now).2
        (containerIdleIn_release now h)

theorem releaseSession_lookup_other {o : Orm} {sid2 : String} (now : Nat) {sid : String}
    (hne : sid ≠ sid2) :
    getSessionById (releaseSession o sid2 now).2.current sid = getSessionById o.current sid := by
  cases hl : getSessionById o.current sid2 with
  | none => rw [releaseSession_none now hl]
  | some sx =>
      rw [releaseSession_some now hl]
      show getSessionById
        (updateSession (heldRelease o.current sx) sid2 (releasedMark now)) sid = _
      rw [getSessionById_updateSession (heldRelease o.current sx) sid2 sid (releasedMark now)
        (fun x => rfl), getSessionById_heldRelease]
      cases hc : getSessionById o.current sid with
      | none => rfl
      | some s1 =>
          have hne2 : (s1.id == sid2) = false := by
            rw [beq_eq_false_iff_ne, getSessionById_some_id hc]
            exact hne
          simp only [Option.map_some']
          rw [if_neg]
          rw [beq_eq_false_iff_ne] at hne2
          exact fun he => hne2 (by simpa using he)

/-- The expiry sweep releases every session in the scanned list. -/
theorem cleanup_fold_processes (now : Nat) :
    ∀ (L : List Session) (o : Orm),
      (∀ x ∈ L, getSessionById o.current x.id = some x) →
      (L.map (fun s => s.id)).Nodup →
      ∀ s ∈ L,
        sessionReleasedIn
          ((L.foldl (fun acc x => (releaseSession acc x.id now).2) o)).current s.id ∧
        ∀ cid, s.containerId = some cid →
          containerIdleIn
            ((L.foldl (fun acc x => (releaseSession acc x.id now).2) o)).current cid
  | [], _, _, _, s, hs => absurd hs (List.not_mem_nil s)
  | x :: xs, o, hmem, hnd, s, hs => by
      have hnd' : x.id ∉ xs.map (fun s => s.id) ∧ (xs.map (fun s => s.id)).Nodup := by
        rw [List.map_cons] at hnd
        exact List.nodup_cons.mp hnd
      have hx := hmem x (List.mem_cons_self x xs)
      rcases List.mem_cons.mp hs with rfl | htail
      · have hest := releaseSession_establishes now hx
        constructor
        · exact foldRelease_pres_sess now s.id xs _ hest.1
        · intro cid hcid
          exact foldRelease_pres_cont now cid xs _ (hest.2 cid hcid)
      · have hmem2 : ∀ y ∈ xs,
            getSessionById (releaseSession o x.id now).2.current y.id = some y := by
          intro y hy
          have hne : y.id ≠ x.id := by
            intro he
            exact hnd'.1 (he ▸ List.mem_map_of_mem (fun s => s.id) hy)
          rw [releaseSession_lookup_other now hne]
          exact hmem y (List.mem_cons_of_mem x hy)
        exact cleanup_fold_processes now xs (releaseSession o x.id now).2 hmem2 hnd'.2 s htail

/-- C3 counterexample: the expiry sweep transitions the expired session to
Released, not Expired (the code reuses `release_session`, which always
writes the Released state); the container is idled and the count is
returned. -/
theorem cleanup_sets_released_cx :
    (cleanupExpiredSessions (ormOf cx3Db) 100).1 = 1 ∧
    ((getSessionById (cleanupExpiredSessions (ormOf cx3Db) 100).2.current "s1").map
      (fun s => s.state)) = some "released" ∧
    ((getSessionById (cleanupExpiredSessions (ormOf cx3Db) 100).2.current "s1").map
      (fun s => s.state)) ≠ some "expired" ∧
    ((getContainerById (cleanupExpiredSessions (ormOf cx3Db) 100).2.current "c1").map
      (fun c => c.state)) = some "idle" := by
  decide

/-- C3 (amended): one run of CleanupExpired(now) transitions every Active
session whose `expires_at` is before `now` to **Released** (the Expired
state is never used), returns its held container to Idle, and returns the
number of sessions so processed. -/
theorem cleanupExpired_sets_released (o : Orm) (now : Nat)
    (hnd : (o.current.sessions.map (fun s => s.id)).Nodup) :
    (cleanupExpiredSessions o now).1 = (expiredScan o.current now).length ∧
    ∀ s ∈ o.current.sessions, s.state = "active" →
      ∀ e, s.expiresAt = some e → e < now →
        sessionReleasedIn (cleanupExpiredSessions o now).2.current s.id ∧
        ∀ cid, s.containerId = some cid →
          containerIdleIn (cleanupExpiredSessions o now).2.current cid := by
  constructor
  · rfl
  · intro s hsmem hact e hexp hlt
    have hscan : s ∈ expiredScan o.current now := by
      unfold expiredScan
      rw [List.mem_filter]
      refine ⟨hsmem, ?_⟩
      rw [hact, hexp]
      simp [hlt]
    have hmemAll : ∀ x ∈ expiredScan o.current now, getSessionById o.current x.id = some x := by
      intro x hx
      have hxmem : x ∈ o.current.sessions := (List.mem_filter.mp hx).1
      unfold getSessionById
      exact find?_key_of_nodup (fun s => s.id) o.current.sessions hnd x hxmem
    have hndscan : ((expiredScan o.current now).map (fun s => s.id)).Nodup :=
      List.Nodup.sublist (List.Sublist.map _ (List.filter_sublist _)) hnd
    exact cleanup_fold_processes now (expiredScan o.current now) o hmemAll hndscan s hscan

/-- Witness for the amended C3 theorem at a concrete store with one expired
and one live session. -/
theorem cleanupExpired_sets_released_witness :
    ((ormOf cx3Db).current.sessions.map (fun s => s.id)).Nodup ∧
    ((cleanupExpiredSessions (ormOf cx3Db) 100).1 =
        (expiredScan (ormOf cx3Db).current 100).length ∧
      ∀ s ∈ (ormOf cx3Db).current.sessions, s.state = "active" →
        ∀ e, s.expiresAt = some e → e < 100 →
          sessionReleasedIn (cleanupExpiredSessions (ormOf cx3Db) 100).2.current s.id ∧
          ∀ cid, s.containerId = some cid →
            containerIdleIn (cleanupExpiredSessions (ormOf cx3Db) 100).2.current cid) :=
  ⟨by decide, cleanupExpired_sets_released (ormOf cx3Db) 100 (by decide)⟩

end DynLab
